import Mathlib

/-!
Verification of the TCP server core of the SparkFun RTK Everywhere firmware
(`Firmware/RTK_Everywhere/TcpServer.ino`).

The embedding models the slot table exactly as the source keeps it: three
`uint8_t` bitmasks (`tcpServerClientConnected`, `tcpServerClientDataSent`,
`tcpServerClientWriteError`), a per-slot ring-buffer tail array
(`tcpServerClientTails`, `uint16_t` offsets), and a per-slot socket handle
(modelled by an open/closed flag).  Machine integers are `Nat`/`Int` with
explicit `% 2^w` at the points where the C types truncate (`uint16_t` tail
arithmetic, `uint32_t` millis subtraction).  The socket `write` call is an
environment oracle `w : Fin 4 → Nat → Nat` giving the number of bytes the
socket accepted for a requested length.
-/

namespace RtkTcpServer

/-- `TCP_SERVER_MAX_CLIENTS` from TcpServer.ino. -/
def TCP_SERVER_MAX_CLIENTS : Nat := 4

/-- `TCP_SERVER_CLIENT_DATA_TIMEOUT` (15 * 1000 ms) from TcpServer.ino. -/
def TCP_SERVER_CLIENT_DATA_TIMEOUT : Nat := 15 * 1000

/-- `TCP_SERVER_STATE_OFF` of `enum tcpServerStates`. -/
def TCP_SERVER_STATE_OFF : Nat := 0

/-- `TCP_SERVER_STATE_NETWORK_STARTED` of `enum tcpServerStates`. -/
def TCP_SERVER_STATE_NETWORK_STARTED : Nat := 1

/-- `TCP_SERVER_STATE_RUNNING` of `enum tcpServerStates`. -/
def TCP_SERVER_STATE_RUNNING : Nat := 2

/-- `TCP_SERVER_STATE_MAX` of `enum tcpServerStates`. -/
def TCP_SERVER_STATE_MAX : Nat := 3

/-- C idiom `mask |= 1 << i` on a byte-sized mask. -/
def setBit (mask : Nat) (i : Nat) : Nat := mask ||| (1 <<< i)

/-- C idiom `mask &= ~(1 << i)` on a `uint8_t` mask: `~(1 << i)` is
`255 ^ (1 << i)` at eight bits. -/
def clearBit8 (mask : Nat) (i : Nat) : Nat := mask &&& (255 ^^^ (1 <<< i))

theorem shiftLeft_one (i : Nat) : 1 <<< i = 2 ^ i := by
  rw [Nat.shiftLeft_eq, one_mul]

theorem testBit_setBit_self (mask i : Nat) : (setBit mask i).testBit i = true := by
  simp [setBit, shiftLeft_one, Nat.testBit_lor, Nat.testBit_two_pow]

theorem testBit_setBit_ne (mask i j : Nat) (h : j ≠ i) :
    (setBit mask i).testBit j = mask.testBit j := by
  have h' : i ≠ j := fun e => h e.symm
  simp [setBit, shiftLeft_one, Nat.testBit_lor, Nat.testBit_two_pow, h']

theorem testBit_255 (j : Nat) : Nat.testBit 255 j = decide (j < 8) := by
  have h : (255 : Nat) = 2 ^ 8 - 1 := by norm_num
  rw [h, Nat.testBit_two_pow_sub_one]

theorem testBit_clearBit8_self (mask i : Nat) (hi : i < 8) :
    (clearBit8 mask i).testBit i = false := by
  simp [clearBit8, shiftLeft_one, Nat.testBit_land, Nat.testBit_xor, testBit_255,
    Nat.testBit_two_pow, hi]

theorem testBit_clearBit8_ne (mask i j : Nat) (h : j ≠ i) (hj : j < 8) :
    (clearBit8 mask i).testBit j = mask.testBit j := by
  have h' : i ≠ j := fun e => h e.symm
  simp [clearBit8, shiftLeft_one, Nat.testBit_land, Nat.testBit_xor, testBit_255,
    Nat.testBit_two_pow, hj, h']

/-- Bridge between the C test `(mask & (1 << i)) == 0` and `Nat.testBit`. -/
theorem and_shift_eq_zero_iff (mask i : Nat) :
    mask &&& (1 <<< i) = 0 ↔ mask.testBit i = false := by
  rw [shiftLeft_one, Nat.and_two_pow]
  rcases h : mask.testBit i with _ | _
  · simp [h]
  · have hp : 0 < 2 ^ i := Nat.pow_pos (by norm_num)
    simp [h, hp.ne']

theorem and_shift_ne_zero_iff (mask i : Nat) :
    mask &&& (1 <<< i) ≠ 0 ↔ mask.testBit i = true := by
  rw [Ne, and_shift_eq_zero_iff, Bool.not_eq_false]

/-- The per-client state of TcpServer.ino: the three `uint8_t` bitmasks, the
tail array `tcpServerClientTails`, and whether each `tcpServerClient[i]`
socket is open (`NetworkClient::stop` closes it). -/
@[ext]
structure TcpClients where
  connected : Nat
  dataSent : Nat
  writeError : Nat
  tails : Fin 4 → Nat
  socketOpen : Fin 4 → Bool

/-- The zeroed client table (`tcpServerZeroTail` and zero-initialised
statics). -/
def initClients : TcpClients :=
  { connected := 0, dataSent := 0, writeError := 0, tails := fun _ => 0,
    socketOpen := fun _ => false }

/-- `discardTcpServerBytes(previousTail, newTail)` from TcpServer.ino
(lines 176-198).  The loop body is independent per slot, so the loop is a
pointwise map over the tail array. -/
def discardTcpServerBytes (previousTail newTail : Nat) (tails : Fin 4 → Nat) :
    Fin 4 → Nat := fun index =>
  let tail := tails index
  if previousTail < newTail then
    -- No buffer wrap occurred
    if previousTail ≤ tail ∧ tail < newTail then newTail else tail
  else
    -- Buffer wrap occurred
    if previousTail ≤ tail ∨ tail < newTail then newTail else tail

/-- Membership of `t` in the circular half-open range `[o, n)` of a ring of
capacity `C`, stated from the spec's words: the circular distance from `o`
to `t` is smaller than the circular distance from `o` to `n`. -/
def inCircularRange (C o n t : Nat) : Prop :=
  ((t : Int) - (o : Int)) % (C : Int) < ((n : Int) - (o : Int)) % (C : Int)

instance (C o n t : Nat) : Decidable (inCircularRange C o n t) := by
  unfold inCircularRange; infer_instance

theorem emod_eq_of_lt_of_lt {a C : Int} (h0 : 0 ≤ a) (h1 : a < C) : a % C = a :=
  Int.emod_eq_of_lt h0 h1

/-- Circular distance, no-wrap side: for `o ≤ t < C` the distance from `o`
to `t` is `t - o`. -/
theorem dist_of_ge (C o t : Nat) (h1 : o ≤ t) (h2 : t < C) :
    ((t : Int) - (o : Int)) % (C : Int) = (t : Int) - (o : Int) := by
  apply emod_eq_of_lt_of_lt
  · omega
  · omega

/-- Circular distance, wrap side: for `t < o < C` the distance from `o` to
`t` is `t - o + C`. -/
theorem dist_of_lt (C o t : Nat) (h1 : t < o) (h2 : o < C) :
    ((t : Int) - (o : Int)) % (C : Int) = (t : Int) - (o : Int) + (C : Int) := by
  conv_lhs =>
    rw [show (t : Int) - (o : Int) = ((t : Int) - (o : Int) + (C : Int)) + (-1) * (C : Int)
      from by ring]
  rw [Int.add_mul_emod_self]
  apply emod_eq_of_lt_of_lt <;> omega

/-- Under the in-range side conditions, membership in the circular range
`[o, n)` with `o ≠ n` coincides with the two branch conditions of
`discardTcpServerBytes`. -/
theorem inCircularRange_iff (C o n t : Nat) (hon : o ≠ n) (ho : o < C) (hn : n < C)
    (ht : t < C) :
    inCircularRange C o n t ↔
      (if o < n then o ≤ t ∧ t < n else o ≤ t ∨ t < n) := by
  unfold inCircularRange
  rcases Nat.lt_or_ge o n with holt | hole
  · -- no-wrap discard range
    rw [if_pos holt, dist_of_ge C o n (Nat.le_of_lt holt) hn]
    rcases Nat.lt_or_ge t o with htlt | htge
    · rw [dist_of_lt C o t htlt ho]
      constructor
      · intro h; omega
      · intro ⟨h1, _⟩; omega
    · rw [dist_of_ge C o t htge ht]
      constructor
      · intro h; exact ⟨htge, by omega⟩
      · intro ⟨_, h2⟩; omega
  · -- wrapped discard range: o > n
    have holt : n < o := by omega
    rw [if_neg (by omega), dist_of_lt C o n holt ho]
    rcases Nat.lt_or_ge t o with htlt | htge
    · rw [dist_of_lt C o t htlt ho]
      constructor
      · intro h; right; omega
      · intro h
        rcases h with h | h
        · omega
        · omega
    · rw [dist_of_ge C o t htge ht]
      constructor
      · intro _; left; exact htge
      · intro _; omega

/-- C1: for a discard notification with `oldTail ≠ newTail`, both in
`[0, C)`, and a slot tail in `[0, C)`: after `discardTcpServerBytes` the
slot's tail is `newTail` exactly when the old tail lay in the circular
range `[oldTail, newTail)`, and is unchanged otherwise. -/
theorem discard_sets_range_only (C previousTail newTail : Nat) (tails : Fin 4 → Nat)
    (index : Fin 4) (hon : previousTail ≠ newTail) (ho : previousTail < C)
    (hn : newTail < C) (ht : ∀ i, tails i < C) :
    discardTcpServerBytes previousTail newTail tails index =
      if inCircularRange C previousTail newTail (tails index) then newTail
      else tails index := by
  have hiff := inCircularRange_iff C previousTail newTail (tails index) hon ho hn (ht index)
  simp only [discardTcpServerBytes]
  by_cases hlt : previousTail < newTail
  · rw [if_pos hlt] at hiff
    simp only [if_pos hlt]
    by_cases hc : previousTail ≤ tails index ∧ tails index < newTail
    · rw [if_pos hc, if_pos (hiff.mpr hc)]
    · rw [if_neg hc, if_neg (fun hr => hc (hiff.mp hr))]
  · rw [if_neg hlt] at hiff
    simp only [if_neg hlt]
    by_cases hc : previousTail ≤ tails index ∨ tails index < newTail
    · rw [if_pos hc, if_pos (hiff.mpr hc)]
    · rw [if_neg hc, if_neg (fun hr => hc (hiff.mp hr))]

/-- Example tail table used by witnesses: tails 120, 90, 150, 0. -/
def exTails : Fin 4 → Nat := fun i =>
  if i = 0 then 120 else if i = 1 then 90 else if i = 2 then 150 else 0

/-- Witness for C1 at the spec's Scenario D: discard `[100, 150)` with
capacity 1000; a slot tail of 120 is in range (becomes 150). -/
theorem discard_sets_range_only_witness :
    discardTcpServerBytes 100 150 exTails 0 =
      if inCircularRange 1000 100 150 (exTails 0) then 150 else exTails 0 :=
  discard_sets_range_only 1000 100 150 exTails 0 (by decide) (by decide) (by decide)
    (by decide)

/-- C10: invoking the discard handler with an empty range (equal bounds)
takes the wrap-around branch, whose condition `(tail >= previousTail) ||
(tail < newTail)` holds for every tail; every slot's tail is therefore set
to `newTail`, occupied or not. -/
theorem discard_empty_range_sets_all (previousTail : Nat) (tails : Fin 4 → Nat)
    (index : Fin 4) :
    discardTcpServerBytes previousTail previousTail tails index = previousTail := by
  unfold discardTcpServerBytes
  have h : ¬ previousTail < previousTail := lt_irrefl _
  simp only [if_neg h]
  rcases Nat.lt_or_ge (tails index) previousTail with h' | h'
  · simp only [if_pos (Or.inr h')]
  · simp only [if_pos (Or.inl h')]

/-- Witness that C10's theorem applies at a concrete state: the empty-range
discard rewrites even a tail far outside any plausible range. -/
theorem discard_empty_range_sets_all_witness :
    discardTcpServerBytes 100 100 exTails 2 = 100 :=
  discard_empty_range_sets_all 100 exTails 2

/-- The code-shaped unread count of `tcpServerSendData`:
`bytesToSend = dataHead - tail; if (bytesToSend < 0) bytesToSend +=
settings.gnssHandlerBufferSize`, in the `int32_t` arithmetic of the source
(`C` is `settings.gnssHandlerBufferSize`). -/
def bytesInBuffer (C dataHead tail : Nat) : Int :=
  let bytesToSend : Int := (dataHead : Int) - (tail : Int)
  if bytesToSend < 0 then bytesToSend + (C : Int) else bytesToSend

/-- `tcpServerClientSendData(index, data, length)` (lines 85-120): one
socket write through the oracle `w`; on success (`length > 0`) set the
slot's data-sent bit; on failure stop the socket, clear the connected bit,
set the write-error bit and return 0. -/
def tcpServerClientSendData (w : Fin 4 → Nat → Nat) (index : Fin 4) (length : Nat)
    (st : TcpClients) : Nat × TcpClients :=
  let length := w index length
  if 0 < length then
    (length, { st with dataSent := setBit st.dataSent index.val })
  else
    (0, { st with socketOpen := Function.update st.socketOpen index false,
                  connected := clearBit8 st.connected index.val,
                  writeError := setBit st.writeError index.val })

/-- Accumulator of the `tcpServerSendData` loop: the running `usedSpace`
(`int32_t`), a log of the socket-write attempts made (slot, ring offset of
the data pointer, requested length), and the client table. -/
@[ext]
structure SendAcc where
  usedSpace : Int
  attempts : List (Fin 4 × Nat × Nat)
  clients : TcpClients

/-- One iteration of the `tcpServerSendData` client loop (lines 132-169).
`uint16_t` truncation is written as `% 65536` where the source narrows. -/
def sendStep (C : Nat) (w : Fin 4 → Nat → Nat) (dataHead : Nat) (acc : SendAcc)
    (index : Fin 4) : SendAcc :=
  let tail := acc.clients.tails index
  if acc.clients.connected &&& (1 <<< index.val) = 0 then
    -- client not connected: tail = dataHead
    { acc with clients :=
        { acc.clients with tails := Function.update acc.clients.tails index dataHead } }
  else
    let bytesToSend := bytesInBuffer C dataHead tail
    if 0 < bytesToSend then
      -- reduce bytes to send if the run would cross the end of the buffer
      let bytesToSend :=
        if (C : Int) < (tail : Int) + bytesToSend then (C : Int) - (tail : Int)
        else bytesToSend
      -- the `uint16_t length` parameter of tcpServerClientSendData
      let req : Nat := bytesToSend.toNat % 65536
      let out := tcpServerClientSendData w index req acc.clients
      let tail := (tail + out.1) % 65536
      let tail := if C ≤ tail then tail - C else tail
      let bytesToSend := bytesInBuffer C dataHead tail
      let usedSpace := if acc.usedSpace < bytesToSend then bytesToSend else acc.usedSpace
      { usedSpace := usedSpace,
        attempts := acc.attempts ++ [(index, acc.clients.tails index, req)],
        clients := { out.2 with tails := Function.update out.2.tails index tail } }
    else
      { acc with clients :=
          { acc.clients with tails := Function.update acc.clients.tails index tail } }

/-- `tcpServerSendData(dataHead)` (lines 123-173): the four-iteration client
loop, unrolled in index order, starting from `usedSpace = 0`. -/
def tcpServerSendData (C : Nat) (w : Fin 4 → Nat → Nat) (dataHead : Nat)
    (st : TcpClients) : SendAcc :=
  sendStep C w dataHead
    (sendStep C w dataHead
      (sendStep C w dataHead
        (sendStep C w dataHead { usedSpace := 0, attempts := [], clients := st } 0) 1) 2) 3

/-- `(producerHead − tail) mod C`, the spec's unread-byte count. -/
def unreadI (C dataHead tail : Nat) : Int :=
  ((dataHead : Int) - (tail : Int)) % (C : Int)

/-- The spec's bounded write length: `min(unread, C − tail)`. -/
def slotReq (C dataHead tail : Nat) : Nat :=
  min (unreadI C dataHead tail).toNat (C - tail)

/-- Per-slot tail after one drain iteration, as a function of the slot's
own pre-state. -/
def stepTail (C : Nat) (wi : Nat → Nat) (dataHead tail : Nat) (conn : Bool) : Nat :=
  if conn then
    if tail = dataHead then tail else (tail + wi (slotReq C dataHead tail)) % C
  else dataHead

/-- Whether the drain iteration's write attempt on this slot failed. -/
def slotFailed (C : Nat) (wi : Nat → Nat) (dataHead tail : Nat) (conn : Bool) : Bool :=
  conn && !(tail == dataHead) && (wi (slotReq C dataHead tail) == 0)

/-- Whether the drain iteration wrote at least one byte to this slot. -/
def slotSent (C : Nat) (wi : Nat → Nat) (dataHead tail : Nat) (conn : Bool) : Bool :=
  conn && !(tail == dataHead) && !(wi (slotReq C dataHead tail) == 0)

/-- Pointwise description of the client table after one drain iteration. -/
def stepClients (C : Nat) (w : Fin 4 → Nat → Nat) (dataHead : Nat) (cl : TcpClients)
    (index : Fin 4) : TcpClients :=
  let t := cl.tails index
  let conn := cl.connected.testBit index.val
  let failed := slotFailed C (w index) dataHead t conn
  let sent := slotSent C (w index) dataHead t conn
  { connected := if failed then clearBit8 cl.connected index.val else cl.connected,
    dataSent := if sent then setBit cl.dataSent index.val else cl.dataSent,
    writeError := if failed then setBit cl.writeError index.val else cl.writeError,
    socketOpen := if failed then Function.update cl.socketOpen index false
      else cl.socketOpen,
    tails := Function.update cl.tails index (stepTail C (w index) dataHead t conn) }

/-- The write attempts one drain iteration performs on this slot. -/
def stepLog (C : Nat) (dataHead tail : Nat) (conn : Bool)
    (index : Fin 4) : List (Fin 4 × Nat × Nat) :=
  if conn && !(tail == dataHead) then [(index, tail, slotReq C dataHead tail)] else []

/-- The running `usedSpace` after one drain iteration. -/
def stepUsed (C : Nat) (wi : Nat → Nat) (dataHead tail : Nat) (conn : Bool)
    (u : Int) : Int :=
  if conn && !(tail == dataHead) then
    max u (unreadI C dataHead (stepTail C wi dataHead tail conn))
  else u

/-- The claim's reported maximum: over slots whose connected bit is set in
`connected0`, the unread count at the given (final) tails; `0` when no slot
is connected. -/
def maxUnreadSpec (C dataHead : Nat) (connected0 : Nat) (finalTails : Fin 4 → Nat) :
    Int :=
  (List.finRange 4).foldl
    (fun m i =>
      if connected0.testBit i.val then max m (unreadI C dataHead (finalTails i)) else m) 0

theorem unreadI_nonneg (C dataHead tail : Nat) (hC : 0 < C) :
    0 ≤ unreadI C dataHead tail :=
  Int.emod_nonneg _ (by exact_mod_cast hC.ne')

theorem unreadI_lt (C dataHead tail : Nat) (hC : 0 < C) :
    unreadI C dataHead tail < C :=
  Int.emod_lt_of_pos _ (by exact_mod_cast hC)

theorem unreadI_self (C dataHead : Nat) : unreadI C dataHead dataHead = 0 := by
  simp [unreadI]

theorem bytesInBuffer_eq_unreadI (C dataHead tail : Nat) (hh : dataHead < C)
    (ht : tail < C) : bytesInBuffer C dataHead tail = unreadI C dataHead tail := by
  simp only [bytesInBuffer, unreadI]
  rcases Nat.lt_or_ge dataHead tail with h | h
  · rw [if_pos (by omega), dist_of_lt C tail dataHead h ht]
  · rw [if_neg (by omega), dist_of_ge C tail dataHead h hh]

theorem if_lt_max (u b : Int) : (if u < b then b else u) = max u b := by
  by_cases h : u < b
  · rw [if_pos h, max_eq_right h.le]
  · rw [if_neg h, max_eq_left (not_lt.mp h)]

theorem unreadI_pos (C dataHead tail : Nat) (hh : dataHead < C) (ht : tail < C)
    (hne : tail ≠ dataHead) : 0 < unreadI C dataHead tail := by
  unfold unreadI
  rcases Nat.lt_or_ge dataHead tail with h | h
  · rw [dist_of_lt C tail dataHead h ht]; omega
  · have h' : tail < dataHead := by omega
    rw [dist_of_ge C tail dataHead h hh]; omega

/-- The source's crossing-the-end clamp equals the spec's
`min(unread, C − tail)`. -/
theorem clamp_eq_slotReq (C dataHead tail : Nat) (ht : tail < C) :
    (if (C : Int) < (tail : Int) + unreadI C dataHead tail then (C : Int) - (tail : Int)
     else unreadI C dataHead tail).toNat = slotReq C dataHead tail := by
  have h0 := unreadI_nonneg C dataHead tail (by omega)
  have hu : ((unreadI C dataHead tail).toNat : Int) = unreadI C dataHead tail :=
    Int.toNat_of_nonneg h0
  unfold slotReq
  by_cases hc : (C : Int) < (tail : Int) + unreadI C dataHead tail
  · rw [if_pos hc]; omega
  · rw [if_neg hc]; omega

theorem slotReq_le_sub (C dataHead tail : Nat) : slotReq C dataHead tail ≤ C - tail :=
  min_le_right _ _

theorem wrap_eq_mod (C x : Nat) (hx : x ≤ C) :
    (if C ≤ x then x - C else x) = x % C := by
  by_cases h : C ≤ x
  · have hxc : x = C := le_antisymm hx h
    rw [if_pos h, hxc, Nat.sub_self, Nat.mod_self]
  · rw [if_neg h, Nat.mod_eq_of_lt (by omega)]

/-- Characterization of one iteration of the `tcpServerSendData` loop by
the pointwise `step*` functions, under the ring invariants (`dataHead` and
the slot's tail in `[0, C)`, `C` a `uint16_t` size, a socket write never
returning more than requested). -/
theorem sendStep_eq (C : Nat) (w : Fin 4 → Nat → Nat) (dataHead : Nat) (u : Int)
    (l : List (Fin 4 × Nat × Nat)) (cl : TcpClients) (index : Fin 4)
    (hC16 : C < 65536) (hh : dataHead < C) (ht : cl.tails index < C)
    (hw : ∀ n, w index n ≤ n) :
    sendStep C w dataHead ⟨u, l, cl⟩ index =
      ⟨stepUsed C (w index) dataHead (cl.tails index)
         (cl.connected.testBit index.val) u,
       l ++ stepLog C dataHead (cl.tails index) (cl.connected.testBit index.val) index,
       stepClients C w dataHead cl index⟩ := by
  have hC : 0 < C := by omega
  by_cases hconn : cl.connected.testBit index.val
  · -- connected slot
    have hnz : ¬ cl.connected &&& (1 <<< index.val) = 0 :=
      (and_shift_ne_zero_iff _ _).mpr hconn
    by_cases hth : cl.tails index = dataHead
    · -- nothing to send
      have hbb : bytesInBuffer C dataHead dataHead = 0 := by
        simp [bytesInBuffer]
      simp only [sendStep, hnz, if_false, hth, hbb, if_neg (lt_irrefl (0 : Int))]
      simp [stepUsed, stepLog, stepClients, stepTail, slotFailed, slotSent, hconn, hth]
    · -- data pending: one bounded write
      have hbb : bytesInBuffer C dataHead (cl.tails index) =
          unreadI C dataHead (cl.tails index) :=
        bytesInBuffer_eq_unreadI C dataHead (cl.tails index) hh ht
      have hpos : 0 < unreadI C dataHead (cl.tails index) :=
        unreadI_pos C dataHead (cl.tails index) hh ht hth
      have hreq : (if (C : Int) < ((cl.tails index : Int)) + unreadI C dataHead (cl.tails index)
          then (C : Int) - ((cl.tails index : Int))
          else unreadI C dataHead (cl.tails index)).toNat = slotReq C dataHead (cl.tails index) :=
        clamp_eq_slotReq C dataHead (cl.tails index) ht
      have hreqlt : slotReq C dataHead (cl.tails index) < 65536 := by
        have := slotReq_le_sub C dataHead (cl.tails index); omega
      have hbeq : ((cl.tails index == dataHead) : Bool) = false := by
        simp [hth]
      simp only [sendStep, hnz, if_false, hbb, if_pos hpos, hreq,
        Nat.mod_eq_of_lt hreqlt, tcpServerClientSendData]
      by_cases hw0 : w index (slotReq C dataHead (cl.tails index)) = 0
      · -- write failure
        have hwlt : ¬ 0 < w index (slotReq C dataHead (cl.tails index)) := by omega
        have htmod : (cl.tails index + 0) % 65536 = cl.tails index := by
          rw [Nat.add_zero, Nat.mod_eq_of_lt (by omega)]
        have hnwrap : ¬ C ≤ cl.tails index := by omega
        have hm1 : cl.tails index % 65536 = cl.tails index := Nat.mod_eq_of_lt (by omega)
        have hm2 : cl.tails index % C = cl.tails index := Nat.mod_eq_of_lt ht
        simp [hw0, htmod, hnwrap, hbb, if_lt_max, stepUsed, stepLog, stepClients,
          stepTail, slotFailed, slotSent, hconn, hbeq, hth, hm1, hm2]
      · -- write success, possibly short
        have hwpos : 0 < w index (slotReq C dataHead (cl.tails index)) := by omega
        have hle : w index (slotReq C dataHead (cl.tails index)) ≤
            slotReq C dataHead (cl.tails index) := hw _
        have hsum : cl.tails index + w index (slotReq C dataHead (cl.tails index)) ≤ C := by
          have := slotReq_le_sub C dataHead (cl.tails index); omega
        have htmod : (cl.tails index + w index (slotReq C dataHead (cl.tails index))) % 65536 =
            cl.tails index + w index (slotReq C dataHead (cl.tails index)) :=
          Nat.mod_eq_of_lt (by omega)
        have hwrap := wrap_eq_mod C
          (cl.tails index + w index (slotReq C dataHead (cl.tails index))) hsum
        have hmodlt : (cl.tails index + w index (slotReq C dataHead (cl.tails index))) % C < C :=
          Nat.mod_lt _ hC
        have hbb2 : bytesInBuffer C dataHead
            ((cl.tails index + w index (slotReq C dataHead (cl.tails index))) % C) =
            unreadI C dataHead
              ((cl.tails index + w index (slotReq C dataHead (cl.tails index))) % C) :=
          bytesInBuffer_eq_unreadI C dataHead _ hh hmodlt
        have hw0b : ((w index (slotReq C dataHead (cl.tails index)) == 0) : Bool) = false := by
          simp [hw0]
        simp [if_pos hwpos, htmod, hwrap, hbb2, if_lt_max,
          stepUsed, stepLog, stepClients, stepTail, slotFailed, slotSent, hconn, hbeq,
          hw0b, hth]
  · -- unconnected slot: tail is pinned to dataHead
    have hz : cl.connected &&& (1 <<< index.val) = 0 :=
      (and_shift_eq_zero_iff _ _).mpr (Bool.not_eq_true _ ▸ hconn)
    have hconnf : cl.connected.testBit index.val = false := by
      simpa using hconn
    simp [sendStep, hz, stepUsed, stepLog, stepClients, stepTail,
      slotFailed, slotSent, hconnf]

theorem stepClients_tails_ne (C : Nat) (w : Fin 4 → Nat → Nat) (dataHead : Nat)
    (cl : TcpClients) {index j : Fin 4} (h : j ≠ index) :
    (stepClients C w dataHead cl index).tails j = cl.tails j := by
  simp [stepClients, Function.update_noteq h]

theorem stepClients_tails_self (C : Nat) (w : Fin 4 → Nat → Nat) (dataHead : Nat)
    (cl : TcpClients) (index : Fin 4) :
    (stepClients C w dataHead cl index).tails index =
      stepTail C (w index) dataHead (cl.tails index)
        (cl.connected.testBit index.val) := by
  simp [stepClients]

theorem stepClients_connected_ne (C : Nat) (w : Fin 4 → Nat → Nat) (dataHead : Nat)
    (cl : TcpClients) {index j : Fin 4} (h : j ≠ index) :
    (stepClients C w dataHead cl index).connected.testBit j.val =
      cl.connected.testBit j.val := by
  have hv : j.val ≠ index.val := fun e => h (Fin.ext e)
  simp only [stepClients]
  split
  · exact testBit_clearBit8_ne _ _ _ hv (by omega)
  · rfl

theorem stepClients_connected_self (C : Nat) (w : Fin 4 → Nat → Nat) (dataHead : Nat)
    (cl : TcpClients) (index : Fin 4) :
    (stepClients C w dataHead cl index).connected.testBit index.val =
      (cl.connected.testBit index.val &&
        !slotFailed C (w index) dataHead (cl.tails index)
          (cl.connected.testBit index.val)) := by
  simp only [stepClients]
  by_cases hf : slotFailed C (w index) dataHead (cl.tails index)
      (cl.connected.testBit index.val) = true
  · rw [if_pos hf, hf, testBit_clearBit8_self _ _ (by omega), Bool.not_true,
      Bool.and_false]
  · rw [if_neg hf, Bool.not_eq_true] at *
    rw [hf, Bool.not_false, Bool.and_true]

theorem stepClients_dataSent_ne (C : Nat) (w : Fin 4 → Nat → Nat) (dataHead : Nat)
    (cl : TcpClients) {index j : Fin 4} (h : j ≠ index) :
    (stepClients C w dataHead cl index).dataSent.testBit j.val =
      cl.dataSent.testBit j.val := by
  have hv : j.val ≠ index.val := fun e => h (Fin.ext e)
  simp only [stepClients]
  split
  · exact testBit_setBit_ne _ _ _ hv
  · rfl

theorem stepClients_dataSent_self (C : Nat) (w : Fin 4 → Nat → Nat) (dataHead : Nat)
    (cl : TcpClients) (index : Fin 4) :
    (stepClients C w dataHead cl index).dataSent.testBit index.val =
      (slotSent C (w index) dataHead (cl.tails index)
          (cl.connected.testBit index.val) ||
        cl.dataSent.testBit index.val) := by
  simp only [stepClients]
  by_cases hs : slotSent C (w index) dataHead (cl.tails index)
      (cl.connected.testBit index.val) = true
  · rw [if_pos hs, hs, testBit_setBit_self, Bool.true_or]
  · rw [if_neg hs, Bool.not_eq_true] at *
    rw [hs, Bool.false_or]

theorem stepClients_writeError_ne (C : Nat) (w : Fin 4 → Nat → Nat) (dataHead : Nat)
    (cl : TcpClients) {index j : Fin 4} (h : j ≠ index) :
    (stepClients C w dataHead cl index).writeError.testBit j.val =
      cl.writeError.testBit j.val := by
  have hv : j.val ≠ index.val := fun e => h (Fin.ext e)
  simp only [stepClients]
  split
  · exact testBit_setBit_ne _ _ _ hv
  · rfl

theorem stepClients_writeError_self (C : Nat) (w : Fin 4 → Nat → Nat) (dataHead : Nat)
    (cl : TcpClients) (index : Fin 4) :
    (stepClients C w dataHead cl index).writeError.testBit index.val =
      (slotFailed C (w index) dataHead (cl.tails index)
          (cl.connected.testBit index.val) ||
        cl.writeError.testBit index.val) := by
  simp only [stepClients]
  by_cases hf : slotFailed C (w index) dataHead (cl.tails index)
      (cl.connected.testBit index.val) = true
  · rw [if_pos hf, hf, testBit_setBit_self, Bool.true_or]
  · rw [if_neg hf, Bool.not_eq_true] at *
    rw [hf, Bool.false_or]

theorem stepClients_socketOpen_ne (C : Nat) (w : Fin 4 → Nat → Nat) (dataHead : Nat)
    (cl : TcpClients) {index j : Fin 4} (h : j ≠ index) :
    (stepClients C w dataHead cl index).socketOpen j = cl.socketOpen j := by
  simp only [stepClients]
  split
  · exact Function.update_noteq h _ _
  · rfl

theorem stepClients_socketOpen_self (C : Nat) (w : Fin 4 → Nat → Nat) (dataHead : Nat)
    (cl : TcpClients) (index : Fin 4) :
    (stepClients C w dataHead cl index).socketOpen index =
      (if slotFailed C (w index) dataHead (cl.tails index)
          (cl.connected.testBit index.val) then false
       else cl.socketOpen index) := by
  simp only [stepClients]
  split
  · simp
  · rfl

/-- Master characterization of `tcpServerSendData`: the four loop
iterations, written pointwise.  The arguments of every `stepUsed`/`stepLog`
are already collapsed to the INITIAL state's slot data (each iteration only
touches its own slot). -/
theorem tcpServerSendData_eq (C : Nat) (w : Fin 4 → Nat → Nat) (dataHead : Nat)
    (st : TcpClients) (hC16 : C < 65536) (hh : dataHead < C)
    (ht : ∀ i, st.tails i < C) (hw : ∀ i n, w i n ≤ n) :
    tcpServerSendData C w dataHead st =
      { usedSpace :=
          stepUsed C (w 3) dataHead (st.tails 3) (st.connected.testBit (3 : Fin 4).val)
            (stepUsed C (w 2) dataHead (st.tails 2) (st.connected.testBit (2 : Fin 4).val)
              (stepUsed C (w 1) dataHead (st.tails 1) (st.connected.testBit (1 : Fin 4).val)
                (stepUsed C (w 0) dataHead (st.tails 0)
                  (st.connected.testBit (0 : Fin 4).val) 0))),
        attempts :=
          stepLog C dataHead (st.tails 0) (st.connected.testBit (0 : Fin 4).val) 0 ++
            stepLog C dataHead (st.tails 1) (st.connected.testBit (1 : Fin 4).val) 1 ++
            stepLog C dataHead (st.tails 2) (st.connected.testBit (2 : Fin 4).val) 2 ++
            stepLog C dataHead (st.tails 3) (st.connected.testBit (3 : Fin 4).val) 3,
        clients :=
          stepClients C w dataHead
            (stepClients C w dataHead
              (stepClients C w dataHead (stepClients C w dataHead st 0) 1) 2) 3 } := by
  have h10 : (1 : Fin 4) ≠ 0 := by decide
  have h20 : (2 : Fin 4) ≠ 0 := by decide
  have h21 : (2 : Fin 4) ≠ 1 := by decide
  have h30 : (3 : Fin 4) ≠ 0 := by decide
  have h31 : (3 : Fin 4) ≠ 1 := by decide
  have h32 : (3 : Fin 4) ≠ 2 := by decide
  have ht1 : (stepClients C w dataHead st 0).tails 1 = st.tails 1 :=
    stepClients_tails_ne C w dataHead st h10
  have ht2 : (stepClients C w dataHead (stepClients C w dataHead st 0) 1).tails 2 =
      st.tails 2 := by
    rw [stepClients_tails_ne C w dataHead _ h21, stepClients_tails_ne C w dataHead _ h20]
  have ht3 : (stepClients C w dataHead
      (stepClients C w dataHead (stepClients C w dataHead st 0) 1) 2).tails 3 =
      st.tails 3 := by
    rw [stepClients_tails_ne C w dataHead _ h32, stepClients_tails_ne C w dataHead _ h31,
      stepClients_tails_ne C w dataHead _ h30]
  have hc1 : (stepClients C w dataHead st 0).connected.testBit (1 : Fin 4).val =
      st.connected.testBit (1 : Fin 4).val :=
    stepClients_connected_ne C w dataHead st h10
  have hc2 : (stepClients C w dataHead (stepClients C w dataHead st 0)
      1).connected.testBit (2 : Fin 4).val = st.connected.testBit (2 : Fin 4).val := by
    rw [stepClients_connected_ne C w dataHead _ h21,
      stepClients_connected_ne C w dataHead _ h20]
  have hc3 : (stepClients C w dataHead (stepClients C w dataHead
      (stepClients C w dataHead st 0) 1) 2).connected.testBit (3 : Fin 4).val =
      st.connected.testBit (3 : Fin 4).val := by
    rw [stepClients_connected_ne C w dataHead _ h32,
      stepClients_connected_ne C w dataHead _ h31,
      stepClients_connected_ne C w dataHead _ h30]
  unfold tcpServerSendData
  rw [sendStep_eq C w dataHead 0 [] st 0 hC16 hh (ht 0) (hw 0)]
  rw [sendStep_eq C w dataHead _ _ _ 1 hC16 hh (by rw [ht1]; exact ht 1) (hw 1)]
  rw [sendStep_eq C w dataHead _ _ _ 2 hC16 hh (by rw [ht2]; exact ht 2) (hw 2)]
  rw [sendStep_eq C w dataHead _ _ _ 3 hC16 hh (by rw [ht3]; exact ht 3) (hw 3)]
  rw [ht1, ht2, ht3, hc1, hc2, hc3]
  simp [List.append_assoc]

theorem stepLog_filter_self (C dataHead t : Nat) (conn : Bool) (i : Fin 4) :
    (stepLog C dataHead t conn i).filter (fun a => a.1 == i) =
      stepLog C dataHead t conn i := by
  unfold stepLog
  split
  · simp
  · rfl

theorem stepLog_filter_ne (C dataHead t : Nat) (conn : Bool) {i j : Fin 4}
    (h : j ≠ i) :
    (stepLog C dataHead t conn j).filter (fun a => a.1 == i) = [] := by
  unfold stepLog
  split
  · simp [h]
  · rfl

/-- Final tail of slot `i` after a full `tcpServerSendData` pass, as a
function of the slot's own initial data. -/
theorem finalTails_eq (C : Nat) (w : Fin 4 → Nat → Nat) (dataHead : Nat)
    (st : TcpClients) (hC16 : C < 65536) (hh : dataHead < C)
    (ht : ∀ i, st.tails i < C) (hw : ∀ i n, w i n ≤ n) (i : Fin 4) :
    (tcpServerSendData C w dataHead st).clients.tails i =
      stepTail C (w i) dataHead (st.tails i) (st.connected.testBit i.val) := by
  rw [tcpServerSendData_eq C w dataHead st hC16 hh ht hw]
  fin_cases i
  · rw [show ((⟨0, by omega⟩ : Fin 4)) = (0 : Fin 4) from rfl]
    rw [stepClients_tails_ne C w dataHead _ (by decide),
      stepClients_tails_ne C w dataHead _ (by decide),
      stepClients_tails_ne C w dataHead _ (by decide), stepClients_tails_self]
  · rw [show ((⟨1, by omega⟩ : Fin 4)) = (1 : Fin 4) from rfl]
    rw [stepClients_tails_ne C w dataHead _ (by decide),
      stepClients_tails_ne C w dataHead _ (by decide), stepClients_tails_self,
      stepClients_tails_ne C w dataHead _ (by decide),
      stepClients_connected_ne C w dataHead _ (by decide)]
  · rw [show ((⟨2, by omega⟩ : Fin 4)) = (2 : Fin 4) from rfl]
    rw [stepClients_tails_ne C w dataHead _ (by decide), stepClients_tails_self,
      stepClients_tails_ne C w dataHead _ (by decide),
      stepClients_tails_ne C w dataHead _ (by decide),
      stepClients_connected_ne C w dataHead _ (by decide),
      stepClients_connected_ne C w dataHead _ (by decide)]
  · rw [show ((⟨3, by omega⟩ : Fin 4)) = (3 : Fin 4) from rfl]
    rw [stepClients_tails_self,
      stepClients_tails_ne C w dataHead _ (by decide),
      stepClients_tails_ne C w dataHead _ (by decide),
      stepClients_tails_ne C w dataHead _ (by decide),
      stepClients_connected_ne C w dataHead _ (by decide),
      stepClients_connected_ne C w dataHead _ (by decide),
      stepClients_connected_ne C w dataHead _ (by decide)]

/-- Final connected bit of slot `i` after a full `tcpServerSendData` pass. -/
theorem finalConnected_eq (C : Nat) (w : Fin 4 → Nat → Nat) (dataHead : Nat)
    (st : TcpClients) (hC16 : C < 65536) (hh : dataHead < C)
    (ht : ∀ i, st.tails i < C) (hw : ∀ i n, w i n ≤ n) (i : Fin 4) :
    (tcpServerSendData C w dataHead st).clients.connected.testBit i.val =
      (st.connected.testBit i.val &&
        !slotFailed C (w i) dataHead (st.tails i) (st.connected.testBit i.val)) := by
  rw [tcpServerSendData_eq C w dataHead st hC16 hh ht hw]
  fin_cases i
  · rw [show ((⟨0, by omega⟩ : Fin 4)) = (0 : Fin 4) from rfl]
    rw [stepClients_connected_ne C w dataHead _ (by decide),
      stepClients_connected_ne C w dataHead _ (by decide),
      stepClients_connected_ne C w dataHead _ (by decide), stepClients_connected_self]
  · rw [show ((⟨1, by omega⟩ : Fin 4)) = (1 : Fin 4) from rfl]
    rw [stepClients_connected_ne C w dataHead _ (by decide),
      stepClients_connected_ne C w dataHead _ (by decide), stepClients_connected_self,
      stepClients_tails_ne C w dataHead _ (by decide),
      stepClients_connected_ne C w dataHead _ (by decide)]
  · rw [show ((⟨2, by omega⟩ : Fin 4)) = (2 : Fin 4) from rfl]
    rw [stepClients_connected_ne C w dataHead _ (by decide), stepClients_connected_self,
      stepClients_tails_ne C w dataHead _ (by decide),
      stepClients_tails_ne C w dataHead _ (by decide),
      stepClients_connected_ne C w dataHead _ (by decide),
      stepClients_connected_ne C w dataHead _ (by decide)]
  · rw [show ((⟨3, by omega⟩ : Fin 4)) = (3 : Fin 4) from rfl]
    rw [stepClients_connected_self,
      stepClients_tails_ne C w dataHead _ (by decide),
      stepClients_tails_ne C w dataHead _ (by decide),
      stepClients_tails_ne C w dataHead _ (by decide),
      stepClients_connected_ne C w dataHead _ (by decide),
      stepClients_connected_ne C w dataHead _ (by decide),
      stepClients_connected_ne C w dataHead _ (by decide)]

/-- Final write-error bit of slot `i` after a full `tcpServerSendData`
pass. -/
theorem finalWriteError_eq (C : Nat) (w : Fin 4 → Nat → Nat) (dataHead : Nat)
    (st : TcpClients) (hC16 : C < 65536) (hh : dataHead < C)
    (ht : ∀ i, st.tails i < C) (hw : ∀ i n, w i n ≤ n) (i : Fin 4) :
    (tcpServerSendData C w dataHead st).clients.writeError.testBit i.val =
      (slotFailed C (w i) dataHead (st.tails i) (st.connected.testBit i.val) ||
        st.writeError.testBit i.val) := by
  rw [tcpServerSendData_eq C w dataHead st hC16 hh ht hw]
  fin_cases i
  · rw [show ((⟨0, by omega⟩ : Fin 4)) = (0 : Fin 4) from rfl]
    rw [stepClients_writeError_ne C w dataHead _ (by decide),
      stepClients_writeError_ne C w dataHead _ (by decide),
      stepClients_writeError_ne C w dataHead _ (by decide), stepClients_writeError_self]
  · rw [show ((⟨1, by omega⟩ : Fin 4)) = (1 : Fin 4) from rfl]
    rw [stepClients_writeError_ne C w dataHead _ (by decide),
      stepClients_writeError_ne C w dataHead _ (by decide), stepClients_writeError_self,
      stepClients_tails_ne C w dataHead _ (by decide),
      stepClients_connected_ne C w dataHead _ (by decide),
      stepClients_writeError_ne C w dataHead _ (by decide)]
  · rw [show ((⟨2, by omega⟩ : Fin 4)) = (2 : Fin 4) from rfl]
    rw [stepClients_writeError_ne C w dataHead _ (by decide), stepClients_writeError_self,
      stepClients_tails_ne C w dataHead _ (by decide),
      stepClients_tails_ne C w dataHead _ (by decide),
      stepClients_connected_ne C w dataHead _ (by decide),
      stepClients_connected_ne C w dataHead _ (by decide),
      stepClients_writeError_ne C w dataHead _ (by decide),
      stepClients_writeError_ne C w dataHead _ (by decide)]
  · rw [show ((⟨3, by omega⟩ : Fin 4)) = (3 : Fin 4) from rfl]
    rw [stepClients_writeError_self,
      stepClients_tails_ne C w dataHead _ (by decide),
      stepClients_tails_ne C w dataHead _ (by decide),
      stepClients_tails_ne C w dataHead _ (by decide),
      stepClients_connected_ne C w dataHead _ (by decide),
      stepClients_connected_ne C w dataHead _ (by decide),
      stepClients_connected_ne C w dataHead _ (by decide),
      stepClients_writeError_ne C w dataHead _ (by decide),
      stepClients_writeError_ne C w dataHead _ (by decide),
      stepClients_writeError_ne C w dataHead _ (by decide)]

/-- Final socket state of slot `i` after a full `tcpServerSendData` pass. -/
theorem finalSocketOpen_eq (C : Nat) (w : Fin 4 → Nat → Nat) (dataHead : Nat)
    (st : TcpClients) (hC16 : C < 65536) (hh : dataHead < C)
    (ht : ∀ i, st.tails i < C) (hw : ∀ i n, w i n ≤ n) (i : Fin 4) :
    (tcpServerSendData C w dataHead st).clients.socketOpen i =
      (if slotFailed C (w i) dataHead (st.tails i) (st.connected.testBit i.val)
       then false else st.socketOpen i) := by
  rw [tcpServerSendData_eq C w dataHead st hC16 hh ht hw]
  fin_cases i
  · rw [show ((⟨0, by omega⟩ : Fin 4)) = (0 : Fin 4) from rfl]
    rw [stepClients_socketOpen_ne C w dataHead _ (by decide),
      stepClients_socketOpen_ne C w dataHead _ (by decide),
      stepClients_socketOpen_ne C w dataHead _ (by decide), stepClients_socketOpen_self]
  · rw [show ((⟨1, by omega⟩ : Fin 4)) = (1 : Fin 4) from rfl]
    rw [stepClients_socketOpen_ne C w dataHead _ (by decide),
      stepClients_socketOpen_ne C w dataHead _ (by decide), stepClients_socketOpen_self,
      stepClients_tails_ne C w dataHead _ (by decide),
      stepClients_connected_ne C w dataHead _ (by decide),
      stepClients_socketOpen_ne C w dataHead _ (by decide)]
  · rw [show ((⟨2, by omega⟩ : Fin 4)) = (2 : Fin 4) from rfl]
    rw [stepClients_socketOpen_ne C w dataHead _ (by decide), stepClients_socketOpen_self,
      stepClients_tails_ne C w dataHead _ (by decide),
      stepClients_tails_ne C w dataHead _ (by decide),
      stepClients_connected_ne C w dataHead _ (by decide),
      stepClients_connected_ne C w dataHead _ (by decide),
      stepClients_socketOpen_ne C w dataHead _ (by decide),
      stepClients_socketOpen_ne C w dataHead _ (by decide)]
  · rw [show ((⟨3, by omega⟩ : Fin 4)) = (3 : Fin 4) from rfl]
    rw [stepClients_socketOpen_self,
      stepClients_tails_ne C w dataHead _ (by decide),
      stepClients_tails_ne C w dataHead _ (by decide),
      stepClients_tails_ne C w dataHead _ (by decide),
      stepClients_connected_ne C w dataHead _ (by decide),
      stepClients_connected_ne C w dataHead _ (by decide),
      stepClients_connected_ne C w dataHead _ (by decide),
      stepClients_socketOpen_ne C w dataHead _ (by decide),
      stepClients_socketOpen_ne C w dataHead _ (by decide),
      stepClients_socketOpen_ne C w dataHead _ (by decide)]

/-- The write attempts a full `tcpServerSendData` pass directs at slot `i`. -/
theorem finalAttempts_eq (C : Nat) (w : Fin 4 → Nat → Nat) (dataHead : Nat)
    (st : TcpClients) (hC16 : C < 65536) (hh : dataHead < C)
    (ht : ∀ i, st.tails i < C) (hw : ∀ i n, w i n ≤ n) (i : Fin 4) :
    (tcpServerSendData C w dataHead st).attempts.filter (fun a => a.1 == i) =
      stepLog C dataHead (st.tails i) (st.connected.testBit i.val) i := by
  rw [tcpServerSendData_eq C w dataHead st hC16 hh ht hw]
  fin_cases i
  · rw [show ((⟨0, by omega⟩ : Fin 4)) = (0 : Fin 4) from rfl]
    simp only [List.filter_append, stepLog_filter_self,
      stepLog_filter_ne C dataHead _ _ (show (1 : Fin 4) ≠ 0 by decide),
      stepLog_filter_ne C dataHead _ _ (show (2 : Fin 4) ≠ 0 by decide),
      stepLog_filter_ne C dataHead _ _ (show (3 : Fin 4) ≠ 0 by decide),
      List.append_nil, List.nil_append]
  · rw [show ((⟨1, by omega⟩ : Fin 4)) = (1 : Fin 4) from rfl]
    simp only [List.filter_append, stepLog_filter_self,
      stepLog_filter_ne C dataHead _ _ (show (0 : Fin 4) ≠ 1 by decide),
      stepLog_filter_ne C dataHead _ _ (show (2 : Fin 4) ≠ 1 by decide),
      stepLog_filter_ne C dataHead _ _ (show (3 : Fin 4) ≠ 1 by decide),
      List.append_nil, List.nil_append]
  · rw [show ((⟨2, by omega⟩ : Fin 4)) = (2 : Fin 4) from rfl]
    simp only [List.filter_append, stepLog_filter_self,
      stepLog_filter_ne C dataHead _ _ (show (0 : Fin 4) ≠ 2 by decide),
      stepLog_filter_ne C dataHead _ _ (show (1 : Fin 4) ≠ 2 by decide),
      stepLog_filter_ne C dataHead _ _ (show (3 : Fin 4) ≠ 2 by decide),
      List.append_nil, List.nil_append]
  · rw [show ((⟨3, by omega⟩ : Fin 4)) = (3 : Fin 4) from rfl]
    simp only [List.filter_append, stepLog_filter_self,
      stepLog_filter_ne C dataHead _ _ (show (0 : Fin 4) ≠ 3 by decide),
      stepLog_filter_ne C dataHead _ _ (show (1 : Fin 4) ≠ 3 by decide),
      stepLog_filter_ne C dataHead _ _ (show (2 : Fin 4) ≠ 3 by decide),
      List.append_nil, List.nil_append]

/-- Final data-sent bit of slot `i` after a full `tcpServerSendData` pass. -/
theorem finalDataSent_eq (C : Nat) (w : Fin 4 → Nat → Nat) (dataHead : Nat)
    (st : TcpClients) (hC16 : C < 65536) (hh : dataHead < C)
    (ht : ∀ i, st.tails i < C) (hw : ∀ i n, w i n ≤ n) (i : Fin 4) :
    (tcpServerSendData C w dataHead st).clients.dataSent.testBit i.val =
      (slotSent C (w i) dataHead (st.tails i) (st.connected.testBit i.val) ||
        st.dataSent.testBit i.val) := by
  rw [tcpServerSendData_eq C w dataHead st hC16 hh ht hw]
  fin_cases i
  · rw [show ((⟨0, by omega⟩ : Fin 4)) = (0 : Fin 4) from rfl]
    rw [stepClients_dataSent_ne C w dataHead _ (by decide),
      stepClients_dataSent_ne C w dataHead _ (by decide),
      stepClients_dataSent_ne C w dataHead _ (by decide), stepClients_dataSent_self]
  · rw [show ((⟨1, by omega⟩ : Fin 4)) = (1 : Fin 4) from rfl]
    rw [stepClients_dataSent_ne C w dataHead _ (by decide),
      stepClients_dataSent_ne C w dataHead _ (by decide), stepClients_dataSent_self,
      stepClients_tails_ne C w dataHead _ (by decide),
      stepClients_connected_ne C w dataHead _ (by decide),
      stepClients_dataSent_ne C w dataHead _ (by decide)]
  · rw [show ((⟨2, by omega⟩ : Fin 4)) = (2 : Fin 4) from rfl]
    rw [stepClients_dataSent_ne C w dataHead _ (by decide), stepClients_dataSent_self,
      stepClients_tails_ne C w dataHead _ (by decide),
      stepClients_tails_ne C w dataHead _ (by decide),
      stepClients_connected_ne C w dataHead _ (by decide),
      stepClients_connected_ne C w dataHead _ (by decide),
      stepClients_dataSent_ne C w dataHead _ (by decide),
      stepClients_dataSent_ne C w dataHead _ (by decide)]
  · rw [show ((⟨3, by omega⟩ : Fin 4)) = (3 : Fin 4) from rfl]
    rw [stepClients_dataSent_self,
      stepClients_tails_ne C w dataHead _ (by decide),
      stepClients_tails_ne C w dataHead _ (by decide),
      stepClients_tails_ne C w dataHead _ (by decide),
      stepClients_connected_ne C w dataHead _ (by decide),
      stepClients_connected_ne C w dataHead _ (by decide),
      stepClients_connected_ne C w dataHead _ (by decide),
      stepClients_dataSent_ne C w dataHead _ (by decide),
      stepClients_dataSent_ne C w dataHead _ (by decide),
      stepClients_dataSent_ne C w dataHead _ (by decide)]

theorem stepUsed_nonneg (C : Nat) (wi : Nat → Nat) (dataHead t : Nat) (conn : Bool)
    (u : Int) (hu : 0 ≤ u) : 0 ≤ stepUsed C wi dataHead t conn u := by
  unfold stepUsed
  split
  · exact le_trans hu (le_max_left _ _)
  · exact hu

theorem stepUsed_eq_if (C : Nat) (wi : Nat → Nat) (dataHead t : Nat) (conn : Bool)
    (u : Int) (hu : 0 ≤ u) :
    stepUsed C wi dataHead t conn u =
      if conn then max u (unreadI C dataHead (stepTail C wi dataHead t conn)) else u := by
  unfold stepUsed
  cases conn with
  | false => simp
  | true =>
    by_cases hth : t = dataHead
    · rw [hth]
      simp [stepTail, unreadI_self, max_eq_left hu]
    · have hb : ((t == dataHead) : Bool) = false := by simp [hth]
      simp [hb, stepTail, hth]

theorem unreadI_eq_zero_iff (C dataHead tail : Nat) (hh : dataHead < C)
    (ht : tail < C) : unreadI C dataHead tail = 0 ↔ tail = dataHead := by
  constructor
  · intro h
    by_contra hne
    exact absurd h (unreadI_pos C dataHead tail hh ht hne).ne'
  · intro h
    rw [h, unreadI_self]

/-- C2: the `int32_t` value `tcpServerSendData` returns equals the maximum,
over the slots that were connected when the pass began, of each such slot's
unread byte count at its final tail; with no connected slot it is `0`, and
an unconnected slot's tail never contributes. -/
theorem tcpServerSendData_reports_max_unread (C : Nat) (w : Fin 4 → Nat → Nat)
    (dataHead : Nat) (st : TcpClients) (hC16 : C < 65536) (hh : dataHead < C)
    (ht : ∀ i, st.tails i < C) (hw : ∀ i n, w i n ≤ n) :
    (tcpServerSendData C w dataHead st).usedSpace =
      maxUnreadSpec C dataHead st.connected
        (tcpServerSendData C w dataHead st).clients.tails := by
  have hfr : List.finRange 4 = [(0 : Fin 4), 1, 2, 3] := by decide
  simp only [maxUnreadSpec, hfr, List.foldl_cons, List.foldl_nil]
  rw [finalTails_eq C w dataHead st hC16 hh ht hw 0,
    finalTails_eq C w dataHead st hC16 hh ht hw 1,
    finalTails_eq C w dataHead st hC16 hh ht hw 2,
    finalTails_eq C w dataHead st hC16 hh ht hw 3]
  rw [tcpServerSendData_eq C w dataHead st hC16 hh ht hw]
  have n0 : (0 : Int) ≤ 0 := le_refl 0
  have n1 := stepUsed_nonneg C (w 0) dataHead (st.tails 0)
    (st.connected.testBit (0 : Fin 4).val) 0 n0
  have n2 := stepUsed_nonneg C (w 1) dataHead (st.tails 1)
    (st.connected.testBit (1 : Fin 4).val) _ n1
  have n3 := stepUsed_nonneg C (w 2) dataHead (st.tails 2)
    (st.connected.testBit (2 : Fin 4).val) _ n2
  have e3 := stepUsed_eq_if C (w 3) dataHead (st.tails 3)
    (st.connected.testBit (3 : Fin 4).val) _ n3
  have e2 := stepUsed_eq_if C (w 2) dataHead (st.tails 2)
    (st.connected.testBit (2 : Fin 4).val) _ n2
  have e1 := stepUsed_eq_if C (w 1) dataHead (st.tails 1)
    (st.connected.testBit (1 : Fin 4).val) _ n1
  have e0 := stepUsed_eq_if C (w 0) dataHead (st.tails 0)
    (st.connected.testBit (0 : Fin 4).val) 0 n0
  show stepUsed C (w 3) dataHead (st.tails 3) (st.connected.testBit (3 : Fin 4).val) _ = _
  rw [e3, e2, e1, e0]

/-- Example client table for witnesses: slots 0 and 1 connected (mask 3),
no flags set, tails of `exTails`. -/
def exClients : TcpClients :=
  { connected := 3, dataSent := 0, writeError := 0, tails := exTails,
    socketOpen := fun _ => true }

/-- Witness instantiating C2 at capacity 1000, head 500, a full-write
socket oracle and the two-connected-slot example table. -/
theorem tcpServerSendData_reports_max_unread_witness :
    (tcpServerSendData 1000 (fun _ n => n) 500 exClients).usedSpace =
      maxUnreadSpec 1000 500 exClients.connected
        (tcpServerSendData 1000 (fun _ n => n) 500 exClients).clients.tails :=
  tcpServerSendData_reports_max_unread 1000 (fun _ n => n) 500 exClients
    (by decide) (by decide) (by decide) (fun _ n => le_refl n)

/-- C4: for a connected slot with head and tail in `[0, C)`: when the
unread count `(head − tail) mod C` is zero, no write is attempted on the
slot and its tail is unchanged; when it is positive, exactly one write of
`min(unread, C − tail)` bytes starting at the slot's tail is attempted,
and when the socket accepts `0 < written` bytes the tail advances to
`(tail + written) mod C`. -/
theorem tcpServerSendData_slot_drain (C : Nat) (w : Fin 4 → Nat → Nat)
    (dataHead : Nat) (st : TcpClients) (i : Fin 4) (hC16 : C < 65536)
    (hh : dataHead < C) (ht : ∀ j, st.tails j < C) (hw : ∀ j n, w j n ≤ n)
    (hconn : st.connected.testBit i.val = true) :
    (unreadI C dataHead (st.tails i) = 0 →
      (tcpServerSendData C w dataHead st).attempts.filter (fun a => a.1 == i) = [] ∧
      (tcpServerSendData C w dataHead st).clients.tails i = st.tails i) ∧
    (0 < unreadI C dataHead (st.tails i) →
      (tcpServerSendData C w dataHead st).attempts.filter (fun a => a.1 == i) =
        [(i, st.tails i, min (unreadI C dataHead (st.tails i)).toNat (C - st.tails i))] ∧
      (0 < w i (slotReq C dataHead (st.tails i)) →
        (tcpServerSendData C w dataHead st).clients.tails i =
          (st.tails i + w i (slotReq C dataHead (st.tails i))) % C)) := by
  constructor
  · intro hz
    have hth : st.tails i = dataHead :=
      (unreadI_eq_zero_iff C dataHead (st.tails i) hh (ht i)).mp hz
    constructor
    · rw [finalAttempts_eq C w dataHead st hC16 hh ht hw i]
      simp [stepLog, hth]
    · rw [finalTails_eq C w dataHead st hC16 hh ht hw i]
      simp [stepTail, hconn, hth]
  · intro hpos
    have hth : st.tails i ≠ dataHead := by
      intro e
      rw [(unreadI_eq_zero_iff C dataHead (st.tails i) hh (ht i)).mpr e] at hpos
      exact lt_irrefl _ hpos
    constructor
    · rw [finalAttempts_eq C w dataHead st hC16 hh ht hw i]
      simp [stepLog, slotReq, hconn, hth]
    · intro _
      rw [finalTails_eq C w dataHead st hC16 hh ht hw i]
      simp [stepTail, hconn, hth]

/-- Witness instantiating C4 at slot 0 of the example table (tail 120,
head 500, so 380 unread bytes) with a full-write socket oracle. -/
theorem tcpServerSendData_slot_drain_witness :
    (tcpServerSendData 1000 (fun _ n => n) 500 exClients).attempts.filter
        (fun a => a.1 == (0 : Fin 4)) =
      [((0 : Fin 4), 120, min (unreadI 1000 500 120).toNat (1000 - 120))] ∧
    (tcpServerSendData 1000 (fun _ n => n) 500 exClients).clients.tails 0 =
      (120 + (fun (_ : Fin 4) (n : Nat) => n) 0 (slotReq 1000 500 120)) % 1000 := by
  have h := tcpServerSendData_slot_drain 1000 (fun _ n => n) 500 exClients 0
    (by decide) (by decide) (by decide) (fun _ n => le_refl n) (by decide)
  exact ⟨(h.2 (by decide)).1, (h.2 (by decide)).2 (by decide)⟩

/-- C5: when the socket write to a connected slot with pending data fails
(the socket accepts 0 bytes), that slot's write-error bit is set, its
connected bit is cleared and its socket is closed already within the send
pass — hence before any later accept pass — with its tail left in place;
and every other slot's outcome is independent of that failure: under any
oracle that agrees on slot `j`, slot `j` ends in the same state. -/
theorem tcpServerSendData_write_failure_isolated (C : Nat) (w : Fin 4 → Nat → Nat)
    (dataHead : Nat) (st : TcpClients) (i : Fin 4) (hC16 : C < 65536)
    (hh : dataHead < C) (ht : ∀ j, st.tails j < C) (hw : ∀ j n, w j n ≤ n)
    (hconn : st.connected.testBit i.val = true)
    (hpos : 0 < unreadI C dataHead (st.tails i))
    (hfail : w i (slotReq C dataHead (st.tails i)) = 0) :
    (tcpServerSendData C w dataHead st).clients.connected.testBit i.val = false ∧
    (tcpServerSendData C w dataHead st).clients.writeError.testBit i.val = true ∧
    (tcpServerSendData C w dataHead st).clients.socketOpen i = false ∧
    (tcpServerSendData C w dataHead st).clients.tails i = st.tails i ∧
    ∀ (w' : Fin 4 → Nat → Nat) (j : Fin 4), j ≠ i →
      (∀ n, w' j n = w j n) → (∀ k n, w' k n ≤ n) →
        ((tcpServerSendData C w' dataHead st).clients.tails j =
           (tcpServerSendData C w dataHead st).clients.tails j ∧
         (tcpServerSendData C w' dataHead st).clients.connected.testBit j.val =
           (tcpServerSendData C w dataHead st).clients.connected.testBit j.val ∧
         (tcpServerSendData C w' dataHead st).clients.dataSent.testBit j.val =
           (tcpServerSendData C w dataHead st).clients.dataSent.testBit j.val ∧
         (tcpServerSendData C w' dataHead st).clients.writeError.testBit j.val =
           (tcpServerSendData C w dataHead st).clients.writeError.testBit j.val ∧
         (tcpServerSendData C w' dataHead st).clients.socketOpen j =
           (tcpServerSendData C w dataHead st).clients.socketOpen j) := by
  have hth : st.tails i ≠ dataHead := by
    intro e
    rw [(unreadI_eq_zero_iff C dataHead (st.tails i) hh (ht i)).mpr e] at hpos
    exact lt_irrefl _ hpos
  have hfailb : slotFailed C (w i) dataHead (st.tails i)
      (st.connected.testBit i.val) = true := by
    simp [slotFailed, hconn, hth, hfail]
  refine ⟨?_, ?_, ?_, ?_, ?_⟩
  · rw [finalConnected_eq C w dataHead st hC16 hh ht hw i, hfailb]
    simp
  · rw [finalWriteError_eq C w dataHead st hC16 hh ht hw i, hfailb]
    simp
  · rw [finalSocketOpen_eq C w dataHead st hC16 hh ht hw i, hfailb]
    simp
  · rw [finalTails_eq C w dataHead st hC16 hh ht hw i]
    simp [stepTail, hconn, hth, hfail, Nat.mod_eq_of_lt (ht i)]
  · intro w' j hji hagree hw'
    have hval : w' j (slotReq C dataHead (st.tails j)) =
        w j (slotReq C dataHead (st.tails j)) := hagree _
    have hTail : stepTail C (w' j) dataHead (st.tails j)
        (st.connected.testBit j.val) =
        stepTail C (w j) dataHead (st.tails j) (st.connected.testBit j.val) := by
      unfold stepTail
      rw [hval]
    have hFailed : slotFailed C (w' j) dataHead (st.tails j)
        (st.connected.testBit j.val) =
        slotFailed C (w j) dataHead (st.tails j) (st.connected.testBit j.val) := by
      unfold slotFailed
      rw [hval]
    have hSent : slotSent C (w' j) dataHead (st.tails j)
        (st.connected.testBit j.val) =
        slotSent C (w j) dataHead (st.tails j) (st.connected.testBit j.val) := by
      unfold slotSent
      rw [hval]
    refine ⟨?_, ?_, ?_, ?_, ?_⟩
    · rw [finalTails_eq C w' dataHead st hC16 hh ht hw' j,
        finalTails_eq C w dataHead st hC16 hh ht hw j, hTail]
    · rw [finalConnected_eq C w' dataHead st hC16 hh ht hw' j,
        finalConnected_eq C w dataHead st hC16 hh ht hw j, hFailed]
    · rw [finalDataSent_eq C w' dataHead st hC16 hh ht hw' j,
        finalDataSent_eq C w dataHead st hC16 hh ht hw j, hSent]
    · rw [finalWriteError_eq C w' dataHead st hC16 hh ht hw' j,
        finalWriteError_eq C w dataHead st hC16 hh ht hw j, hFailed]
    · rw [finalSocketOpen_eq C w' dataHead st hC16 hh ht hw' j,
        finalSocketOpen_eq C w dataHead st hC16 hh ht hw j, hFailed]

/-- The Scenario-B oracle: every write to slot 1 fails, all other slots
accept everything. -/
def exFailOracle : Fin 4 → Nat → Nat := fun i n => if i = 1 then 0 else n

/-- Witness instantiating C5 at slot 1 of the example table (its writes
fail) and checking slot 0 via the full-write oracle. -/
theorem tcpServerSendData_write_failure_isolated_witness :
    (tcpServerSendData 1000 exFailOracle 500 exClients).clients.connected.testBit
        (1 : Fin 4).val = false ∧
    (tcpServerSendData 1000 exFailOracle 500 exClients).clients.writeError.testBit
        (1 : Fin 4).val = true ∧
    (tcpServerSendData 1000 exFailOracle 500 exClients).clients.socketOpen 1 = false ∧
    (tcpServerSendData 1000 exFailOracle 500 exClients).clients.tails 1 =
      exClients.tails 1 ∧
    (tcpServerSendData 1000 (fun _ n => n) 500 exClients).clients.tails 0 =
      (tcpServerSendData 1000 exFailOracle 500 exClients).clients.tails 0 := by
  have h := tcpServerSendData_write_failure_isolated 1000 exFailOracle 500 exClients 1
    (by decide) (by decide) (by decide)
    (fun k n => by unfold exFailOracle; split <;> omega)
    (by decide) (by decide) (by decide)
  refine ⟨h.1, h.2.1, h.2.2.1, h.2.2.2.1, ?_⟩
  exact (h.2.2.2.2 (fun _ n => n) 0 (by decide) (fun n => by unfold exFailOracle; simp)
    (fun _ n => le_refl n)).1

/-- Environment read by one lifecycle tick: settings, display gates, mode,
network status, the per-slot `tcpServerClient[i]->connected()` probes and
the number of connections waiting in `tcpServer->available()`. -/
structure TcpEnv where
  debugTcpServer : Bool
  periodicDisplayState : Bool
  inMainMenu : Bool
  enableTcpServer : Bool
  modeOk : Bool
  wifiConnected : Bool
  networkShuttingDown : Bool
  networkConnected : Bool
  networkOpenOk : Bool
  startOk : Bool
  socketConnected : Fin 4 → Bool
  pending : Nat

/-- `tcpServerSetState(newState)` (lines 205-226): the new state is always
stored; the out-of-range check (`newState >= TCP_SERVER_STATE_MAX`, leading
to `reportFatalError`) runs only inside the state-debug print block, gated
on `(settings.debugTcpServer || PERIODIC_DISPLAY(PD_TCP_SERVER_STATE)) &&
!inMainMenu`.  Returns the stored state and whether `reportFatalError`
(an infinite halt loop) was invoked. -/
def tcpServerSetState (e : TcpEnv) (newState : Nat) : Nat × Bool :=
  (newState,
   ((e.debugTcpServer || e.periodicDisplayState) && !e.inMainMenu) &&
     decide (TCP_SERVER_STATE_MAX ≤ newState))

/-- `tcpServerStopClient(index)` (lines 293-320): stop the socket, clear
the connected bit and the write-error bit (the diagnostic block only
prints). -/
def tcpServerStopClient (index : Fin 4) (cl : TcpClients) : TcpClients :=
  { cl with socketOpen := Function.update cl.socketOpen index false,
            connected := clearBit8 cl.connected index.val,
            writeError := clearBit8 cl.writeError index.val }

/-- Global server state: `online.tcpServer`, whether `tcpServer` is
non-null, `tcpServerState`, `tcpServerTimer`, whether the
`NETWORK_USER_TCP_SERVER` handle is held, and the client table. -/
structure TcpServerSys where
  online : Bool
  serverExists : Bool
  tcpServerState : Nat
  tcpServerTimer : Nat
  networkUser : Bool
  clients : TcpClients

/-- `tcpServerStop()` (lines 250-290): drop the online flag, stop every
client when any is connected, delete the listener, and when the state is
not OFF release the network handle, set OFF and restart the timer at the
current `millis()` (`now`). -/
def tcpServerStop (e : TcpEnv) (now : Nat) (s : TcpServerSys) : TcpServerSys :=
  let s := if s.online then { s with online := false } else s
  let s := if s.clients.connected ≠ 0 then
      { s with clients :=
          tcpServerStopClient 3 (tcpServerStopClient 2 (tcpServerStopClient 1
            (tcpServerStopClient 0 s.clients))) }
    else s
  let s := if s.serverExists then { s with serverExists := false } else s
  if s.tcpServerState ≠ TCP_SERVER_STATE_OFF then
    { s with networkUser := false,
             tcpServerState := (tcpServerSetState e TCP_SERVER_STATE_OFF).1,
             tcpServerTimer := now }
  else s

/-- `tcpServerStart()` (lines 229-247): allocate and start the listener;
on success set `online.tcpServer`. -/
def tcpServerStart (e : TcpEnv) (s : TcpServerSys) : Bool × TcpServerSys :=
  if e.startOk then (true, { s with serverExists := true, online := true })
  else (false, { s with serverExists := false })

/-- `uint32_t` subtraction `a - b` as the source computes
`millis() - tcpServerTimer`. -/
def u32sub (a b : Nat) : Nat :=
  (a + 4294967296 - b % 4294967296) % 4294967296

theorem u32sub_eq (a b : Nat) (hba : b ≤ a) (hd : a - b < 4294967296)
    (hb : b < 4294967296) : u32sub a b = a - b := by
  unfold u32sub
  rw [Nat.mod_eq_of_lt hb, show a + 4294967296 - b = (a - b) + 4294967296 by omega,
    Nat.add_mod_right, Nat.mod_eq_of_lt hd]

/-- One iteration of the first client walk of the RUNNING state
(lines 418-444): drop a connected slot whose socket is gone or that has
shown no delivery within the liveness window. -/
def tcpServerDropStep (e : TcpEnv) (now timer : Nat) (cl : TcpClients)
    (index : Fin 4) : TcpClients :=
  if cl.connected &&& (1 <<< index.val) ≠ 0 then
    let connected := e.socketConnected index
    let dataSent := decide (u32sub now timer < TCP_SERVER_CLIENT_DATA_TIMEOUT) ||
      !(cl.dataSent &&& (1 <<< index.val) == 0)
    if connected && dataSent then cl else tcpServerStopClient index cl
  else cl

/-- The first client walk of the RUNNING state, unrolled in index order. -/
def tcpServerDropPass (e : TcpEnv) (now timer : Nat) (cl : TcpClients) : TcpClients :=
  tcpServerDropStep e now timer
    (tcpServerDropStep e now timer
      (tcpServerDropStep e now timer
        (tcpServerDropStep e now timer cl 0) 1) 2) 3

/-- The second client walk of the RUNNING state (lines 447-475): accept a
pending connection into each free slot in index order; `break` as soon as
a free slot finds no pending client.  Accepting sets the connected and
data-sent bits (grace period); the slot's tail and write-error bit are NOT
touched here. -/
def tcpServerAcceptLoop (idxs : List (Fin 4)) (pending : Nat) (cl : TcpClients) :
    TcpClients :=
  match idxs with
  | [] => cl
  | index :: rest =>
    if cl.connected &&& (1 <<< index.val) = 0 then
      match pending with
      | 0 => cl
      | Nat.succ n =>
        tcpServerAcceptLoop rest n
          { cl with socketOpen := Function.update cl.socketOpen index true,
                    connected := setBit cl.connected index.val,
                    dataSent := setBit cl.dataSent index.val }
    else tcpServerAcceptLoop rest pending cl

/-- `tcpServerUpdate()` (lines 323-490): the mode/enable shutdown check
followed by the state machine.  `now` is this tick's `millis()`.  The
trailing `PERIODIC_DISPLAY` block re-stores the same state value and only
prints, so it leaves the modelled state unchanged. -/
def tcpServerUpdate (e : TcpEnv) (now : Nat) (s : TcpServerSys) : TcpServerSys :=
  let s :=
    if !e.modeOk || !e.enableTcpServer then
      if TCP_SERVER_STATE_OFF < s.tcpServerState then tcpServerStop e now s else s
    else s
  if s.tcpServerState = TCP_SERVER_STATE_OFF then
    -- wait until the TCP server is enabled
    if e.modeOk && e.enableTcpServer && !e.wifiConnected then
      if e.networkOpenOk then
        { s with networkUser := true,
                 tcpServerState :=
                   (tcpServerSetState e TCP_SERVER_STATE_NETWORK_STARTED).1 }
      else s
    else s
  else if s.tcpServerState = TCP_SERVER_STATE_NETWORK_STARTED then
    -- wait until the network is connected
    if e.networkShuttingDown then tcpServerStop e now s
    else if e.networkConnected then
      if 1 * 1000 ≤ u32sub now s.tcpServerTimer then
        let s := { s with tcpServerTimer := now }
        let out := tcpServerStart e s
        if out.1 then
          { out.2 with tcpServerState := (tcpServerSetState e TCP_SERVER_STATE_RUNNING).1 }
        else out.2
      else s
    else s
  else if s.tcpServerState = TCP_SERVER_STATE_RUNNING then
    -- handle client connections and link failures
    if !e.enableTcpServer || e.networkShuttingDown then tcpServerStop e now s
    else
      let cl := tcpServerDropPass e now s.tcpServerTimer s.clients
      let cl := tcpServerAcceptLoop [0, 1, 2, 3] e.pending cl
      let s := { s with clients := cl }
      if TCP_SERVER_CLIENT_DATA_TIMEOUT ≤ u32sub now s.tcpServerTimer then
        { s with tcpServerTimer := now, clients := { s.clients with dataSent := 0 } }
      else s
  else s

/-- A tick environment with every diagnostic gate off and quiet network
conditions. -/
def exQuietEnv : TcpEnv :=
  { debugTcpServer := false, periodicDisplayState := false, inMainMenu := false,
    enableTcpServer := true, modeOk := true, wifiConnected := false,
    networkShuttingDown := false, networkConnected := true, networkOpenOk := true,
    startOk := true, socketConnected := fun _ => true, pending := 0 }

/-- Counterexample to C6: with debug output off (and no periodic state
display), `tcpServerSetState` stores the out-of-range state 7 and never
invokes `reportFatalError` — the machine silently continues, so the fatal
behaviour does depend on configuration. -/
theorem tcpServerSetState_out_of_range_silent :
    (tcpServerSetState exQuietEnv 7).1 = 7 ∧
      (tcpServerSetState exQuietEnv 7).2 = false := by
  decide

/-- C6 as amended: the new state value is always stored, and the fatal
halt (`reportFatalError`) fires for an out-of-range state exactly when the
state-debug print gate `(debugTcpServer || PERIODIC_DISPLAY) && !inMainMenu`
is open; otherwise the out-of-range state is accepted silently (and
`tcpServerUpdate`'s switch falls into its silent `default: break`). -/
theorem tcpServerSetState_halts_iff (e : TcpEnv) (newState : Nat) :
    (tcpServerSetState e newState).1 = newState ∧
    ((tcpServerSetState e newState).2 = true ↔
      (((e.debugTcpServer || e.periodicDisplayState) && !e.inMainMenu) = true ∧
        TCP_SERVER_STATE_MAX ≤ newState)) := by
  unfold tcpServerSetState
  exact ⟨rfl, by simp⟩

theorem land_land_self (x m : Nat) : x &&& m &&& m = x &&& m :=
  Nat.eq_of_testBit_eq fun k => by
    simp [Nat.testBit_land, Bool.and_assoc]

/-- Clearing a bit that is not set in a byte-sized mask is the identity. -/
theorem clearBit8_of_testBit_false (x i : Nat) (h8 : x < 256) (hi : i < 8)
    (hx : x.testBit i = false) : clearBit8 x i = x := by
  apply Nat.eq_of_testBit_eq
  intro k
  by_cases hk8 : k < 8
  · by_cases hki : k = i
    · subst hki
      rw [testBit_clearBit8_self _ _ hk8, hx]
    · exact testBit_clearBit8_ne _ _ _ hki hk8
  · have h256 : (256 : Nat) ≤ 2 ^ k := by
      calc (256 : Nat) = 2 ^ 8 := by norm_num
        _ ≤ 2 ^ k := Nat.pow_le_pow_right (by norm_num) (by omega)
    have hxk : x.testBit k = false :=
      Nat.testBit_eq_false_of_lt (lt_of_lt_of_le h8 h256)
    rw [hxk]
    simp only [clearBit8, Nat.testBit_land, Nat.testBit_xor, testBit_255,
      shiftLeft_one, Nat.testBit_two_pow]
    have h1 : ¬ k < 8 := hk8
    have h2 : ¬ i = k := by omega
    simp [h1, h2, hxk]

/-- C8 as amended: dropping a slot twice is the same as dropping it once
(full idempotence of `tcpServerStopClient`); dropping an
already-unoccupied slot leaves occupancy, tails and the data-sent flags
unchanged, but it still clears that slot's write-error bit and closes its
socket handle (C's `stop()` plus the two mask updates run
unconditionally). -/
theorem tcpServerStopClient_idempotent (index : Fin 4) (cl : TcpClients) :
    tcpServerStopClient index (tcpServerStopClient index cl) =
      tcpServerStopClient index cl ∧
    (cl.connected < 256 → cl.connected.testBit index.val = false →
      ((tcpServerStopClient index cl).connected = cl.connected ∧
       (tcpServerStopClient index cl).tails = cl.tails ∧
       (tcpServerStopClient index cl).dataSent = cl.dataSent ∧
       (tcpServerStopClient index cl).writeError = clearBit8 cl.writeError index.val ∧
       (tcpServerStopClient index cl).socketOpen =
         Function.update cl.socketOpen index false)) := by
  constructor
  · simp [tcpServerStopClient, clearBit8, Function.update_idem, land_land_self]
  · intro h8 hbit
    refine ⟨?_, rfl, rfl, rfl, rfl⟩
    exact clearBit8_of_testBit_false cl.connected index.val h8 (by omega) hbit

/-- A slot table left over after a write failure on slot 1: no slot is
occupied, but slot 1's write-error bit is still set. -/
def exFailedClients : TcpClients :=
  { connected := 0, dataSent := 0, writeError := 2, tails := fun _ => 0,
    socketOpen := fun _ => false }

/-- Counterexample to C8's "dropping an already-unoccupied slot changes
nothing": on an unoccupied slot whose write-error bit is set (exactly the
state a failed write leaves behind), `tcpServerStopClient` clears that
bit, changing the observable slot state. -/
theorem tcpServerStopClient_unoccupied_changes_state :
    exFailedClients.connected.testBit (1 : Fin 4).val = false ∧
      (tcpServerStopClient 1 exFailedClients).writeError ≠
        exFailedClients.writeError := by
  decide

/-- Witness instantiating the amended C8 on the example table at the
unoccupied slot 2. -/
theorem tcpServerStopClient_idempotent_witness :
    tcpServerStopClient 2 (tcpServerStopClient 2 exClients) =
      tcpServerStopClient 2 exClients ∧
    ((tcpServerStopClient 2 exClients).connected = exClients.connected ∧
     (tcpServerStopClient 2 exClients).tails = exClients.tails ∧
     (tcpServerStopClient 2 exClients).dataSent = exClients.dataSent ∧
     (tcpServerStopClient 2 exClients).writeError =
       clearBit8 exClients.writeError (2 : Fin 4).val ∧
     (tcpServerStopClient 2 exClients).socketOpen =
       Function.update exClients.socketOpen 2 false) := by
  have h := tcpServerStopClient_idempotent 2 exClients
  exact ⟨h.1, h.2 (by decide) (by decide)⟩

theorem stopAll_connected_testBit (x iv : Nat) (h : iv < 4) :
    (clearBit8 (clearBit8 (clearBit8 (clearBit8 x 0) 1) 2) 3).testBit iv = false := by
  interval_cases iv
  · rw [testBit_clearBit8_ne _ 3 0 (by omega) (by omega),
      testBit_clearBit8_ne _ 2 0 (by omega) (by omega),
      testBit_clearBit8_ne _ 1 0 (by omega) (by omega),
      testBit_clearBit8_self _ 0 (by omega)]
  · rw [testBit_clearBit8_ne _ 3 1 (by omega) (by omega),
      testBit_clearBit8_ne _ 2 1 (by omega) (by omega),
      testBit_clearBit8_self _ 1 (by omega)]
  · rw [testBit_clearBit8_ne _ 3 2 (by omega) (by omega),
      testBit_clearBit8_self _ 2 (by omega)]
  · rw [testBit_clearBit8_self _ 3 (by omega)]

theorem fin4_val_three : ((3 : Fin 4)).val = 3 := rfl

theorem update4_false (f : Fin 4 → Bool) (i : Fin 4) :
    Function.update (Function.update (Function.update
      (Function.update f 0 false) 1 false) 2 false) 3 false i = false := by
  by_cases h3 : i = 3
  · subst h3; rw [Function.update_same]
  · rw [Function.update_noteq h3]
    by_cases h2 : i = 2
    · subst h2; rw [Function.update_same]
    · rw [Function.update_noteq h2]
      by_cases h1 : i = 1
      · subst h1; rw [Function.update_same]
      · rw [Function.update_noteq h1]
        by_cases h0 : i = 0
        · subst h0; rw [Function.update_same]
        · exfalso
          rcases i with ⟨iv, hlt⟩
          interval_cases iv
          · exact h0 (Fin.ext rfl)
          · exact h1 (Fin.ext rfl)
          · exact h2 (Fin.ext rfl)
          · exact h3 (Fin.ext rfl)

/-- `tcpServerStop` always leaves the state OFF: either it already was, or
the final block sets it. -/
theorem tcpServerStop_state (e : TcpEnv) (now : Nat) (s : TcpServerSys) :
    (tcpServerStop e now s).tcpServerState = TCP_SERVER_STATE_OFF := by
  simp only [tcpServerStop]
  by_cases h1 : s.online <;> by_cases h2 : s.clients.connected ≠ 0 <;>
    by_cases h3 : s.serverExists <;>
      simp only [h1, h2, h3, if_true, if_false, Bool.false_eq_true, ite_true,
        ite_false, not_false_eq_true, not_true_eq_false] <;>
      split_ifs with h4 <;> simp_all [tcpServerSetState]

/-- Full teardown contract of `tcpServerStop` from a non-OFF state with
sound socket bookkeeping (an open socket implies a connected slot): state
OFF, timer restarted, network handle released, listener deleted, offline,
every slot unoccupied and every socket closed. -/
theorem tcpServerStop_spec (e : TcpEnv) (now : Nat) (s : TcpServerSys)
    (hne : s.tcpServerState ≠ TCP_SERVER_STATE_OFF)
    (hsock : ∀ j : Fin 4, s.clients.socketOpen j = true →
      s.clients.connected.testBit j.val = true) (i : Fin 4) :
    (tcpServerStop e now s).tcpServerState = TCP_SERVER_STATE_OFF ∧
    (tcpServerStop e now s).tcpServerTimer = now ∧
    (tcpServerStop e now s).networkUser = false ∧
    (tcpServerStop e now s).serverExists = false ∧
    (tcpServerStop e now s).online = false ∧
    (tcpServerStop e now s).clients.connected.testBit i.val = false ∧
    (tcpServerStop e now s).clients.socketOpen i = false := by
  have hbits := stopAll_connected_testBit s.clients.connected i.val (by omega)
  have hupd := update4_false s.clients.socketOpen i
  have hso : s.clients.connected = 0 → s.clients.socketOpen i = false := by
    intro hz
    cases hval : s.clients.socketOpen i with
    | false => rfl
    | true =>
      have := hsock i hval
      rw [hz, Nat.zero_testBit] at this
      cases this
  simp only [tcpServerStop]
  by_cases h1 : s.online <;> by_cases h2 : s.clients.connected ≠ 0 <;>
    by_cases h3 : s.serverExists <;>
      simp_all [tcpServerSetState, tcpServerStopClient, hne, fin4_val_three]

/-- C7: any of the three RUNNING-exit triggers (mode mismatch, service
disabled, network shutting down) makes `tcpServerUpdate` perform the full
teardown: state OFF with the timer restarted at `now`, network handle
released, listener gone, and slot `i` unoccupied with its socket closed. -/
theorem tcpServerUpdate_running_exit (e : TcpEnv) (now : Nat) (s : TcpServerSys)
    (i : Fin 4) (hrun : s.tcpServerState = TCP_SERVER_STATE_RUNNING)
    (htrig : e.modeOk = false ∨ e.enableTcpServer = false ∨
      e.networkShuttingDown = true)
    (hsock : ∀ j : Fin 4, s.clients.socketOpen j = true →
      s.clients.connected.testBit j.val = true) :
    (tcpServerUpdate e now s).tcpServerState = TCP_SERVER_STATE_OFF ∧
    (tcpServerUpdate e now s).tcpServerTimer = now ∧
    (tcpServerUpdate e now s).networkUser = false ∧
    (tcpServerUpdate e now s).serverExists = false ∧
    (tcpServerUpdate e now s).online = false ∧
    (tcpServerUpdate e now s).clients.connected.testBit i.val = false ∧
    (tcpServerUpdate e now s).clients.socketOpen i = false := by
  have hstop := tcpServerStop_spec e now s
    (by rw [hrun]; decide) hsock i
  suffices hupd : tcpServerUpdate e now s = tcpServerStop e now s by
    rw [hupd]; exact hstop
  cases hm : e.modeOk with
  | false =>
    simp [tcpServerUpdate, hm, hrun, tcpServerStop_state, TCP_SERVER_STATE_OFF,
      TCP_SERVER_STATE_RUNNING]
  | true =>
    cases hen : e.enableTcpServer with
    | false =>
      simp [tcpServerUpdate, hm, hen, hrun, tcpServerStop_state, TCP_SERVER_STATE_OFF,
        TCP_SERVER_STATE_RUNNING]
    | true =>
      have hsd : e.networkShuttingDown = true := by
        rcases htrig with h | h | h
        · rw [hm] at h; cases h
        · rw [hen] at h; cases h
        · exact h
      simp [tcpServerUpdate, hm, hen, hsd, hrun, TCP_SERVER_STATE_OFF,
        TCP_SERVER_STATE_NETWORK_STARTED, TCP_SERVER_STATE_RUNNING]

/-- A running server with two occupied slots whose sockets are open. -/
def exRunSys : TcpServerSys :=
  { online := true, serverExists := true, tcpServerState := TCP_SERVER_STATE_RUNNING,
    tcpServerTimer := 1000, networkUser := true,
    clients := { connected := 3, dataSent := 2, writeError := 0, tails := exTails,
                 socketOpen := fun i => decide (i.val < 2) } }

/-- The quiet environment with the network signalling shutdown. -/
def exShutdownEnv : TcpEnv :=
  { exQuietEnv with networkShuttingDown := true }

/-- Witness instantiating C7: a network-shutdown signal while RUNNING
tears everything down. -/
theorem tcpServerUpdate_running_exit_witness :
    (tcpServerUpdate exShutdownEnv 16001 exRunSys).tcpServerState =
      TCP_SERVER_STATE_OFF ∧
    (tcpServerUpdate exShutdownEnv 16001 exRunSys).tcpServerTimer = 16001 ∧
    (tcpServerUpdate exShutdownEnv 16001 exRunSys).networkUser = false ∧
    (tcpServerUpdate exShutdownEnv 16001 exRunSys).serverExists = false ∧
    (tcpServerUpdate exShutdownEnv 16001 exRunSys).online = false ∧
    (tcpServerUpdate exShutdownEnv 16001 exRunSys).clients.connected.testBit
      (0 : Fin 4).val = false ∧
    (tcpServerUpdate exShutdownEnv 16001 exRunSys).clients.socketOpen 0 = false :=
  tcpServerUpdate_running_exit exShutdownEnv 16001 exRunSys 0 (by decide)
    (Or.inr (Or.inr (by decide))) (by decide)

/-- With no pending connection the accept walk changes nothing: the first
free slot breaks out, occupied slots are skipped. -/
theorem tcpServerAcceptLoop_zero (idxs : List (Fin 4)) (cl : TcpClients) :
    tcpServerAcceptLoop idxs 0 cl = cl := by
  induction idxs with
  | nil => rfl
  | cons index rest ih =>
    simp only [tcpServerAcceptLoop]
    split
    · rfl
    · exact ih

theorem dropStep_dataSent (e : TcpEnv) (now timer : Nat) (cl : TcpClients)
    (index : Fin 4) :
    (tcpServerDropStep e now timer cl index).dataSent = cl.dataSent := by
  simp only [tcpServerDropStep, tcpServerStopClient]
  split_ifs <;> rfl

theorem dropStep_connected_ne (e : TcpEnv) (now timer : Nat) (cl : TcpClients)
    {index j : Fin 4} (h : j ≠ index) :
    (tcpServerDropStep e now timer cl index).connected.testBit j.val =
      cl.connected.testBit j.val := by
  have hv : j.val ≠ index.val := fun e' => h (Fin.ext e')
  simp only [tcpServerDropStep, tcpServerStopClient]
  split_ifs <;> first
    | rfl
    | exact testBit_clearBit8_ne _ _ _ hv (by omega)

theorem dropStep_connected_self (e : TcpEnv) (now timer : Nat) (cl : TcpClients)
    (index : Fin 4) :
    (tcpServerDropStep e now timer cl index).connected.testBit index.val =
      (cl.connected.testBit index.val &&
        (e.socketConnected index &&
          (decide (u32sub now timer < TCP_SERVER_CLIENT_DATA_TIMEOUT) ||
            !(cl.dataSent &&& (1 <<< index.val) == 0)))) := by
  simp only [tcpServerDropStep, tcpServerStopClient]
  split_ifs with h1 h2
  · rw [(and_shift_ne_zero_iff _ _).mp h1, h2, Bool.true_and]
  · rw [testBit_clearBit8_self _ _ (by omega), (and_shift_ne_zero_iff _ _).mp h1]
    rw [Bool.not_eq_true] at h2
    rw [h2, Bool.true_and]
  · have hb : cl.connected.testBit index.val = false :=
      (and_shift_eq_zero_iff _ _).mp (not_ne_iff.mp h1)
    rw [hb, Bool.false_and]

/-- Connected bit of slot `i` after the full drop walk: the slot stays
connected exactly when it was connected, its socket is alive, and either
the liveness window has not yet elapsed or its data-sent flag is set.  The
walk never touches the data-sent mask, so each slot is judged on the
original flags. -/
theorem dropPass_connected (e : TcpEnv) (now timer : Nat) (cl : TcpClients)
    (i : Fin 4) :
    (tcpServerDropPass e now timer cl).connected.testBit i.val =
      (cl.connected.testBit i.val &&
        (e.socketConnected i &&
          (decide (u32sub now timer < TCP_SERVER_CLIENT_DATA_TIMEOUT) ||
            !(cl.dataSent &&& (1 <<< i.val) == 0)))) := by
  unfold tcpServerDropPass
  fin_cases i
  · rw [show ((⟨0, by omega⟩ : Fin 4)) = (0 : Fin 4) from rfl]
    rw [dropStep_connected_ne e now timer _ (by decide),
      dropStep_connected_ne e now timer _ (by decide),
      dropStep_connected_ne e now timer _ (by decide), dropStep_connected_self]
  · rw [show ((⟨1, by omega⟩ : Fin 4)) = (1 : Fin 4) from rfl]
    rw [dropStep_connected_ne e now timer _ (by decide),
      dropStep_connected_ne e now timer _ (by decide), dropStep_connected_self,
      dropStep_connected_ne e now timer _ (by decide), dropStep_dataSent]
  · rw [show ((⟨2, by omega⟩ : Fin 4)) = (2 : Fin 4) from rfl]
    rw [dropStep_connected_ne e now timer _ (by decide), dropStep_connected_self,
      dropStep_connected_ne e now timer _ (by decide),
      dropStep_connected_ne e now timer _ (by decide),
      dropStep_dataSent, dropStep_dataSent]
  · rw [show ((⟨3, by omega⟩ : Fin 4)) = (3 : Fin 4) from rfl]
    rw [dropStep_connected_self,
      dropStep_connected_ne e now timer _ (by decide),
      dropStep_connected_ne e now timer _ (by decide),
      dropStep_connected_ne e now timer _ (by decide),
      dropStep_dataSent, dropStep_dataSent, dropStep_dataSent]

/-- C9: in a RUNNING tick with no shutdown trigger and no pending accept,
once the liveness window has elapsed (`now - timer ≥ 15000`): an occupied
slot `i` with a live socket but a clear data-sent flag is dropped, and its
drop satisfies the stale condition (the walk's `dataSent` boolean — the
same expression `tcpServerStopClient` prints as "No data sent over 15
seconds" — is false); an occupied slot `j` whose flag is set survives; the
whole data-sent mask is then cleared and the window timer restarts at
`now`, demanding fresh evidence of delivery in the next window. -/
theorem tcpServerUpdate_liveness_sweep (e : TcpEnv) (now : Nat) (s : TcpServerSys)
    (i j : Fin 4) (hrun : s.tcpServerState = TCP_SERVER_STATE_RUNNING)
    (hen : e.enableTcpServer = true) (hmode : e.modeOk = true)
    (hsd : e.networkShuttingDown = false) (hpend : e.pending = 0)
    (htlt : s.tcpServerTimer < 4294967296) (hba : s.tcpServerTimer ≤ now)
    (hd32 : now - s.tcpServerTimer < 4294967296)
    (helapsed : TCP_SERVER_CLIENT_DATA_TIMEOUT ≤ now - s.tcpServerTimer)
    (hconni : s.clients.connected.testBit i.val = true)
    (hsocki : e.socketConnected i = true)
    (hstalei : s.clients.dataSent.testBit i.val = false)
    (hconnj : s.clients.connected.testBit j.val = true)
    (hsockj : e.socketConnected j = true)
    (hfreshj : s.clients.dataSent.testBit j.val = true) :
    (tcpServerUpdate e now s).clients.connected.testBit i.val = false ∧
    (decide (u32sub now s.tcpServerTimer < TCP_SERVER_CLIENT_DATA_TIMEOUT) ||
      !(s.clients.dataSent &&& (1 <<< i.val) == 0)) = false ∧
    (tcpServerUpdate e now s).clients.connected.testBit j.val = true ∧
    (tcpServerUpdate e now s).clients.dataSent = 0 ∧
    (tcpServerUpdate e now s).tcpServerTimer = now := by
  have hu32 : u32sub now s.tcpServerTimer = now - s.tcpServerTimer :=
    u32sub_eq now s.tcpServerTimer hba hd32 htlt
  have hdec : decide (u32sub now s.tcpServerTimer <
      TCP_SERVER_CLIENT_DATA_TIMEOUT) = false := by
    rw [hu32]
    simp only [TCP_SERVER_CLIENT_DATA_TIMEOUT] at helapsed ⊢
    simp only [decide_eq_false_iff_not, not_lt]
    omega
  have hbiti : (s.clients.dataSent &&& (1 <<< i.val) == 0) = true := by
    rw [beq_iff_eq]
    exact (and_shift_eq_zero_iff _ _).mpr hstalei
  have hbitj : (s.clients.dataSent &&& (1 <<< j.val) == 0) = false := by
    rw [beq_eq_false_iff_ne, Ne]
    rw [and_shift_eq_zero_iff]
    simp [hfreshj]
  have hstale : (decide (u32sub now s.tcpServerTimer <
      TCP_SERVER_CLIENT_DATA_TIMEOUT) ||
      !(s.clients.dataSent &&& (1 <<< i.val) == 0)) = false := by
    rw [hdec, hbiti]
    rfl
  have hfin : TCP_SERVER_CLIENT_DATA_TIMEOUT ≤ u32sub now s.tcpServerTimer := by
    rw [hu32]; exact helapsed
  have hupd : tcpServerUpdate e now s =
      { s with tcpServerTimer := now,
               clients := { tcpServerDropPass e now s.tcpServerTimer s.clients with
                            dataSent := 0 } } := by
    simp [tcpServerUpdate, hmode, hen, hsd, hpend, hrun, TCP_SERVER_STATE_OFF,
      TCP_SERVER_STATE_NETWORK_STARTED, TCP_SERVER_STATE_RUNNING,
      tcpServerAcceptLoop_zero, hfin]
  rw [hupd]
  refine ⟨?_, hstale, ?_, rfl, rfl⟩
  · rw [show ({ tcpServerDropPass e now s.tcpServerTimer s.clients with
        dataSent := 0 } : TcpClients).connected =
        (tcpServerDropPass e now s.tcpServerTimer s.clients).connected from rfl]
    rw [dropPass_connected, hconni, hsocki, hdec, hbiti]
    rfl
  · rw [show ({ tcpServerDropPass e now s.tcpServerTimer s.clients with
        dataSent := 0 } : TcpClients).connected =
        (tcpServerDropPass e now s.tcpServerTimer s.clients).connected from rfl]
    rw [dropPass_connected, hconnj, hsockj, hdec, hbitj]
    rfl

/-- A stale slot table: slots 0 and 1 occupied with open sockets, only
slot 1 has shown delivery in this window. -/
def exStaleSys : TcpServerSys := exRunSys

/-- Witness instantiating C9 at 15001 ms past the window start: slot 0
(no delivery) is dropped stale, slot 1 (delivery seen) survives with the
flag mask cleared. -/
theorem tcpServerUpdate_liveness_sweep_witness :
    (tcpServerUpdate exQuietEnv 16001 exStaleSys).clients.connected.testBit
      (0 : Fin 4).val = false ∧
    (decide (u32sub 16001 exStaleSys.tcpServerTimer <
        TCP_SERVER_CLIENT_DATA_TIMEOUT) ||
      !(exStaleSys.clients.dataSent &&& (1 <<< (0 : Fin 4).val) == 0)) = false ∧
    (tcpServerUpdate exQuietEnv 16001 exStaleSys).clients.connected.testBit
      (1 : Fin 4).val = true ∧
    (tcpServerUpdate exQuietEnv 16001 exStaleSys).clients.dataSent = 0 ∧
    (tcpServerUpdate exQuietEnv 16001 exStaleSys).tcpServerTimer = 16001 :=
  tcpServerUpdate_liveness_sweep exQuietEnv 16001 exStaleSys 0 1 (by decide)
    (by decide) (by decide) (by decide) (by decide) (by decide) (by decide)
    (by decide) (by decide) (by decide) (by decide) (by decide) (by decide)
    (by decide) (by decide)

/-- Producer-facing system state: the ring buffer's write cursor
(`dataHead` of `handleGnssDataTask`) together with the client table. -/
structure SysState where
  head : Nat
  clients : TcpClients

/-- The atomic events of the firmware affecting the client table: the
producer task appending `n` bytes (advancing the head modulo `C`), the
producer task's call to `tcpServerSendData` with the current head, the
accept of a new client into slot `i` by `tcpServerUpdate` (lines 463-466:
it sets the connected and data-sent bits and the socket but does NOT
assign the slot's tail), a `tcpServerStopClient(i)`, and a
`discardTcpServerBytes` notification.  The producer runs on its own task,
so these events interleave arbitrarily with the accept. -/
inductive Event where
  | produce (n : Nat)
  | sendPass (w : Fin 4 → Nat → Nat)
  | accept (i : Fin 4)
  | drop (i : Fin 4)
  | discard (previousTail newTail : Nat)

/-- The accept effect of `tcpServerUpdate` (lines 463-466). -/
def acceptClient (i : Fin 4) (cl : TcpClients) : TcpClients :=
  { cl with socketOpen := Function.update cl.socketOpen i true,
            connected := setBit cl.connected i.val,
            dataSent := setBit cl.dataSent i.val }

def applyEvent (C : Nat) (s : SysState) : Event → SysState
  | .produce n => { s with head := (s.head + n) % C }
  | .sendPass w =>
      { s with clients := (tcpServerSendData C w s.head s.clients).clients }
  | .accept i => { s with clients := acceptClient i s.clients }
  | .drop i => { s with clients := tcpServerStopClient i s.clients }
  | .discard p n =>
      { s with clients :=
          { s.clients with tails := discardTcpServerBytes p n s.clients.tails } }

def runTrace (C : Nat) (s0 : SysState) (tr : List Event) : SysState :=
  tr.foldl (applyEvent C) s0

/-- Power-on state: head 0, zeroed client table (`tcpServerZeroTail`). -/
def initSys : SysState := { head := 0, clients := initClients }

def Event.isAcceptOrDrop : Event → Bool
  | .accept _ => true
  | .drop _ => true
  | _ => false

/-- A history in which bytes are produced between the last send pass and
the accept. -/
def exBadTrace : List Event :=
  [Event.sendPass (fun _ _ => 0), Event.produce 5, Event.accept 0]

/-- Counterexample to C3: an unoccupied slot's tail is pinned to the head
only when `tcpServerSendData` runs; the accept itself never assigns the
tail.  After a send pass at head 0, a production of 5 bytes and then an
accept into free slot 0, the slot is occupied with tail 0 while the head
is 5 — the tail does not equal the head at the moment of acceptance, and
the next send pass would replay bytes `[0, 5)` produced before the
client connected. -/
theorem accept_with_stale_pinned_tail :
    (runTrace 1000 initSys [Event.sendPass (fun _ _ => 0),
        Event.produce 5]).clients.connected.testBit (0 : Fin 4).val = false ∧
    (runTrace 1000 initSys exBadTrace).clients.connected.testBit
      (0 : Fin 4).val = true ∧
    (runTrace 1000 initSys exBadTrace).clients.tails 0 = 0 ∧
    (runTrace 1000 initSys exBadTrace).head = 5 := by
  decide

/-- C3 as amended: the tail a newly accepted client starts from equals the
producer's head as of the most recent send pass before the accept — hence
it equals the head at accept time exactly when nothing is produced and
nothing is discarded between that send pass and the accept (only accepts
and drops intervene). -/
theorem accept_tail_eq_head_of_quiet (C : Nat) (s0 : SysState)
    (pre mid : List Event) (w : Fin 4 → Nat → Nat) (i : Fin 4)
    (hC16 : C < 65536) (hhead : (runTrace C s0 pre).head < C)
    (htails : ∀ j, (runTrace C s0 pre).clients.tails j < C)
    (hw : ∀ j n, w j n ≤ n)
    (hfree : (runTrace C s0 pre).clients.connected.testBit i.val = false)
    (hmid : ∀ ev ∈ mid, ev.isAcceptOrDrop = true) :
    (runTrace C s0
        (pre ++ Event.sendPass w :: (mid ++ [Event.accept i]))).clients.tails i =
      (runTrace C s0
        (pre ++ Event.sendPass w :: (mid ++ [Event.accept i]))).head ∧
    (runTrace C s0
        (pre ++ Event.sendPass w :: (mid ++ [Event.accept i]))).clients.connected.testBit
      i.val = true := by
  simp only [runTrace, List.foldl_append, List.foldl_cons, List.foldl_nil] at *
  have hpin : (applyEvent C (List.foldl (applyEvent C) s0 pre)
      (Event.sendPass w)).clients.tails i =
      (applyEvent C (List.foldl (applyEvent C) s0 pre) (Event.sendPass w)).head := by
    simp only [applyEvent]
    rw [finalTails_eq C w _ _ hC16 hhead htails hw i, hfree]
    simp [stepTail]
  have hinv : ∀ (l : List Event), (∀ ev ∈ l, ev.isAcceptOrDrop = true) →
      ∀ (s : SysState), s.clients.tails i = s.head →
        (List.foldl (applyEvent C) s l).clients.tails i =
          (List.foldl (applyEvent C) s l).head := by
    intro l
    induction l with
    | nil => intro _ s hs; exact hs
    | cons ev rest ih =>
      intro hall s hs
      rw [List.foldl_cons]
      apply ih (fun e he => hall e (List.mem_cons_of_mem _ he))
      have hev := hall ev (List.mem_cons_self _ _)
      cases ev with
      | accept k => simpa [applyEvent, acceptClient] using hs
      | drop k => simpa [applyEvent, tcpServerStopClient] using hs
      | produce n => simp [Event.isAcceptOrDrop] at hev
      | sendPass w' => simp [Event.isAcceptOrDrop] at hev
      | discard p q => simp [Event.isAcceptOrDrop] at hev
  have hmidrun := hinv mid hmid _ hpin
  constructor
  · simpa [applyEvent, acceptClient] using hmidrun
  · simp [applyEvent, acceptClient, testBit_setBit_self]

/-- Witness instantiating the amended C3: 7 bytes are produced, then the
send pass pins the free slot's tail, and the accept follows immediately —
the accepted client's tail equals the head. -/
theorem accept_tail_eq_head_of_quiet_witness :
    (runTrace 1000 initSys
        ([Event.produce 7] ++ Event.sendPass (fun _ n => n) ::
          ([] ++ [Event.accept 0]))).clients.tails 0 =
      (runTrace 1000 initSys
        ([Event.produce 7] ++ Event.sendPass (fun _ n => n) ::
          ([] ++ [Event.accept 0]))).head ∧
    (runTrace 1000 initSys
        ([Event.produce 7] ++ Event.sendPass (fun _ n => n) ::
          ([] ++ [Event.accept 0]))).clients.connected.testBit
      (0 : Fin 4).val = true :=
  accept_tail_eq_head_of_quiet 1000 initSys [Event.produce 7] [] (fun _ n => n) 0
    (by decide) (by decide) (by decide) (fun _ n => le_refl n) (by decide)
    (by intro ev hev; cases hev)

end RtkTcpServer
